import Mathlib

/-!
# Verification of the comparison-pipeline core of civiceval/app

This file gives a shallow embedding, in Lean 4, of the core of the
repository: the response generator, evaluator merge loop and aggregator of
`src/cli/services/comparison-pipeline-service.ts` (`generateAllResponses`,
`aggregateAndSaveResults`, `executeComparisonPipeline`), the tag
normalizer of `src/app/utils/tagUtils.ts`, and the effective-model-id
parser (modelled from the specification, since only its test file is part
of the sources).

Modelling conventions:
* JavaScript `Map` objects become insertion-ordered association lists
  (`List (String × _)`) with `Map.set` replace-or-append semantics
  (`mapSet` below); plain objects used as string-keyed tables are
  modelled the same way.
* JavaScript numbers used as temperatures become `ℚ`; `toFixed(1)` is
  modelled by `toFixed1` (round to the nearest tenth, then print with one
  decimal digit).  Binary floating-point artifacts are abstracted away.
* `undefined` becomes `Option.none`.  Where the source distinguishes
  `null` from `undefined` the distinction is unobservable in the code
  paths the claims concern (both are falsy and both are collapsed by
  `?? null`), so both are modelled as `none`.
* Asynchronous tasks under the `p-limit` concurrency limiter are
  linearized in task-creation order.  Every task writes a distinct slot
  (or, on a key collision, overwrites a slot), so the key set and the
  record contents of the final containers do not depend on the
  interleaving; none of the proved statements concern completion order.
* External collaborators (model-response provider, the two evaluators,
  the storage gateway, the wall clock and the `STORE_FULL_HISTORY`
  environment toggle) are parameters, collected in `Env` or passed
  explicitly, matching the contracts in the specification.
-/

namespace CivicEval

/-! ## Association lists with JavaScript `Map.set` semantics -/

/-- JavaScript `Map.set` / `obj[k] = v`: replace the value at an existing key in
place, or append a new entry at the end. -/
def mapSet {α : Type} (m : List (String × α)) (k : String) (v : α) :
    List (String × α) :=
  match m with
  | [] => [(k, v)]
  | (k0, v0) :: rest =>
      if k0 = k then (k, v) :: rest else (k0, v0) :: mapSet rest k v

/-- JavaScript `Set.add`: append an element unless it is already present
(JavaScript `Set` keeps first-insertion order). -/
def setInsert (s : List String) (x : String) : List String :=
  if x ∈ s then s else s ++ [x]

/-- The keys of an association list, in order. -/
def keysOf {α : Type} (m : List (String × α)) : List String :=
  m.map Prod.fst

theorem keysOf_mapSet {α : Type} (m : List (String × α)) (k : String) (v : α) :
    keysOf (mapSet m k v) = if k ∈ keysOf m then keysOf m else keysOf m ++ [k] := by
  induction m with
  | nil => simp [mapSet, keysOf]
  | cons hd tl ih =>
      obtain ⟨k0, v0⟩ := hd
      by_cases h : k0 = k
      · subst h
        simp [mapSet, keysOf]
      · have hcons : keysOf ((k0, v0) :: tl) = k0 :: keysOf tl := rfl
        have hms : mapSet ((k0, v0) :: tl) k v = (k0, v0) :: mapSet tl k v := by
          simp [mapSet, h]
        have hstep : keysOf ((k0, v0) :: mapSet tl k v) = k0 :: keysOf (mapSet tl k v) := rfl
        rw [hms, hstep, ih, hcons]
        by_cases hmem : k ∈ keysOf tl
        · rw [if_pos hmem, if_pos (List.mem_cons_of_mem _ hmem)]
        · rw [if_neg hmem, if_neg (fun hk => by
            rcases List.mem_cons.mp hk with hk1 | hk2
            · exact h hk1.symm
            · exact hmem hk2)]
          rfl

theorem keysOf_mapSet_nodup {α : Type} (m : List (String × α)) (k : String) (v : α)
    (h : (keysOf m).Nodup) : (keysOf (mapSet m k v)).Nodup := by
  rw [keysOf_mapSet]
  split <;> rename_i hmem
  · exact h
  · simpa [List.nodup_append] using ⟨h, hmem⟩

/-- Folding `mapSet` over a batch of entries. -/
def mapSetAll {α : Type} (m : List (String × α)) (l : List (String × α)) :
    List (String × α) :=
  l.foldl (fun acc kv => mapSet acc kv.1 kv.2) m

theorem keysOf_mapSetAll_nodup {α : Type} (l : List (String × α))
    (m : List (String × α)) (h : (keysOf m).Nodup) :
    (keysOf (mapSetAll m l)).Nodup := by
  induction l generalizing m with
  | nil => exact h
  | cons hd tl ih => exact ih _ (keysOf_mapSet_nodup _ _ _ h)

theorem length_mapSet_of_not_mem {α : Type} (m : List (String × α)) (k : String)
    (v : α) (h : k ∉ keysOf m) :
    (mapSet m k v).length = m.length + 1 := by
  induction m with
  | nil => rfl
  | cons hd tl ih =>
      obtain ⟨k0, v0⟩ := hd
      simp only [keysOf, List.map_cons, List.mem_cons] at h
      push_neg at h
      have hne : ¬ k0 = k := fun hk => h.1 hk.symm
      have hms : mapSet ((k0, v0) :: tl) k v = (k0, v0) :: mapSet tl k v := by
        simp [mapSet, hne]
      rw [hms, List.length_cons, List.length_cons, ih h.2]

theorem mem_keysOf_mapSet {α : Type} (m : List (String × α)) (k : String)
    (v : α) (x : String) :
    x ∈ keysOf (mapSet m k v) ↔ x ∈ keysOf m ∨ x = k := by
  rw [keysOf_mapSet]
  split <;> rename_i hmem
  · constructor
    · exact Or.inl
    · rintro (h | rfl)
      · exact h
      · exact hmem
  · simp

/-- If the keys of the inserted batch are distinct and none of them is
already present, the batch fold grows the map by exactly the batch size. -/
theorem length_mapSetAll {α : Type} (l : List (String × α)) (m : List (String × α))
    (hnodup : (keysOf l).Nodup) (hdisj : ∀ x ∈ keysOf l, x ∉ keysOf m) :
    (mapSetAll m l).length = m.length + l.length := by
  induction l generalizing m with
  | nil => rfl
  | cons hd tl ih =>
      obtain ⟨k, v⟩ := hd
      simp only [keysOf, List.map_cons, List.nodup_cons] at hnodup
      have hk : k ∉ keysOf m := hdisj k (by simp [keysOf])
      have step : (mapSetAll m ((k, v) :: tl)) = mapSetAll (mapSet m k v) tl := rfl
      have hd2 : ∀ x ∈ keysOf tl, x ∉ keysOf (mapSet m k v) := by
        intro x hx
        rw [mem_keysOf_mapSet]
        push_neg
        refine ⟨hdisj x ?_, ?_⟩
        · simp only [keysOf, List.map_cons, List.mem_cons]
          exact Or.inr hx
        · rintro rfl
          exact hnodup.1 hx
      rw [step, ih (mapSet m k v) hnodup.2 hd2,
        length_mapSet_of_not_mem m k v hk]
      simp only [List.length_cons]
      omega

theorem mem_keysOf_mapSetAll {α : Type} (l : List (String × α))
    (m : List (String × α)) (x : String) :
    x ∈ keysOf (mapSetAll m l) ↔ x ∈ keysOf m ∨ x ∈ keysOf l := by
  induction l generalizing m with
  | nil => simp [mapSetAll, keysOf]
  | cons hd tl ih =>
      obtain ⟨k, v⟩ := hd
      have step : (mapSetAll m ((k, v) :: tl)) = mapSetAll (mapSet m k v) tl := rfl
      rw [step, ih, mem_keysOf_mapSet]
      simp only [keysOf, List.map_cons, List.mem_cons]
      tauto

/-! ## Decimal rendering of numbers (JavaScript string interpolation) -/

/-- One decimal digit as a character. -/
def digitChar10 (d : Nat) : Char := Char.ofNat (48 + d)

/-- The digit string of a natural number, most significant digit first
(the behaviour of JavaScript template interpolation for naturals).
Structural recursion on a fuel bound so that the kernel can evaluate it;
`n + 1` fuel always suffices. -/
def natStrGo (fuel n : Nat) : List Char :=
  match fuel with
  | 0 => []
  | fuel + 1 =>
      if n < 10 then [digitChar10 n]
      else natStrGo fuel (n / 10) ++ [digitChar10 (n % 10)]

def natStr (n : Nat) : String := ⟨natStrGo (n + 1) n⟩

/-- Value of a digit character. -/
def digitVal (c : Char) : Nat := c.toNat - 48

theorem digitVal_digitChar10 (d : Nat) (h : d < 10) :
    digitVal (digitChar10 d) = d := by
  interval_cases d <;> rfl

/-- Each character of `natStrGo` is a decimal digit (code 48–57). -/
theorem natStrGo_digits (fuel n : Nat) :
    ∀ c ∈ natStrGo fuel n, 48 ≤ c.toNat ∧ c.toNat ≤ 57 := by
  induction fuel generalizing n with
  | zero => simp [natStrGo]
  | succ fuel ih =>
      intro c hc
      by_cases h : n < 10
      · rw [natStrGo, if_pos h] at hc
        simp only [List.mem_singleton] at hc
        subst hc
        interval_cases n <;> decide
      · rw [natStrGo, if_neg h] at hc
        rcases List.mem_append.mp hc with h1 | h2
        · exact ih (n / 10) c h1
        · simp only [List.mem_singleton] at h2
          subst h2
          have : n % 10 < 10 := Nat.mod_lt _ (by omega)
          interval_cases _h : (n % 10) <;> decide

/-- With enough fuel, reading the digit string back gives the number. -/
theorem parse_natStrGo (fuel n : Nat) (hf : n < fuel) :
    (natStrGo fuel n).foldl (fun a c => a * 10 + digitVal c) 0 = n := by
  induction fuel generalizing n with
  | zero => omega
  | succ fuel ih =>
      by_cases h : n < 10
      · rw [natStrGo, if_pos h]
        simp [digitVal_digitChar10 n h]
      · rw [natStrGo, if_neg h]
        rw [List.foldl_append]
        have hdiv : n / 10 < fuel := by
          have h1 : n / 10 < n := Nat.div_lt_self (by omega) (by omega)
          omega
        rw [ih (n / 10) hdiv]
        simp only [List.foldl_cons, List.foldl_nil]
        rw [digitVal_digitChar10 (n % 10) (Nat.mod_lt _ (by omega))]
        omega

theorem natStr_injective : Function.Injective natStr := by
  intro a b h
  have hdata : natStrGo (a + 1) a = natStrGo (b + 1) b := congrArg String.data h
  have ha := parse_natStrGo (a + 1) a (by omega)
  have hb := parse_natStrGo (b + 1) b (by omega)
  rw [hdata] at ha
  omega

/-- JavaScript `x.toFixed(1)`: round to the nearest tenth and print with exactly one
digit after the decimal point.  Implemented on the numerator/denominator
directly (`⌊10q + 1/2⌋` via integer floor division) so that the kernel
can evaluate it; for the non-negative temperatures that occur in runs
this agrees with JavaScript `toFixed(1)` up to binary-double artifacts,
which this embedding abstracts away. -/
def toFixed1 (q : ℚ) : String :=
  let n : ℤ := Int.fdiv (20 * q.num + (q.den : ℤ)) (2 * (q.den : ℤ))
  let sign : String := if n < 0 then "-" else ""
  let m : Nat := n.natAbs
  sign ++ natStr (m / 10) ++ "." ++ natStr (m % 10)

/-! ## Data model

The shapes below mirror the relevant parts of `ComparisonConfig`,
`PromptResponseData` and `FinalComparisonOutputV2` from
`src/cli/types/comparison_v2.ts`, restricted to the fields the embedded
code reads. -/

/-- One chat message (`ConversationMessage`). -/
structure ConversationMessage where
  role : String
  content : String
deriving DecidableEq, Repr

/-- One prompt of the blueprint (`promptConfig`). -/
structure PromptConfig where
  id : String
  promptText : Option String
  messages : Option (List ConversationMessage)
  idealResponse : Option String
  system : Option String
  temperature : Option ℚ
deriving DecidableEq, Repr

/-- The resolved run configuration (`ComparisonConfig`). -/
structure ComparisonConfig where
  id : Option String
  title : Option String
  description : Option String
  models : List String
  prompts : List PromptConfig
  temperature : Option ℚ
  temperatures : Option (List ℚ)
  system : Option String
  systems : Option (List (Option String))
  concurrency : Option Nat
deriving DecidableEq, Repr

/-- One generated response record (`modelResponses` entry). -/
structure ModelResponseData where
  finalAssistantResponseText : String
  fullConversationHistory : List ConversationMessage
  hasError : Bool
  errorMessage : Option String
  systemPromptUsed : Option String
deriving DecidableEq, Repr

/-- Per-prompt response container (`PromptResponseData`). -/
structure PromptResponseData where
  promptId : String
  promptText : Option String
  initialMessages : List ConversationMessage
  idealResponseText : Option String
  modelResponses : List (String × ModelResponseData)
deriving DecidableEq, Repr

/-- The external model-response provider:
`getResponse(modelId, messages, temperature, useCache)`, which either
returns the response text or throws. -/
def Provider : Type :=
  String → List ConversationMessage → ℚ → Bool → Except String String

/-- Modelled from the spec: `DEFAULT_TEMPERATURE` is a fixed default
constant exported by `llm-service.ts` (not among the sources).  Its
concrete value is immaterial to every claim below; only its definedness
matters. -/
def DEFAULT_TEMPERATURE : ℚ := 0

/-- Modelled from the spec: `checkForErrors` of `response-utils.ts` (not
among the sources) detects whether a successful response payload is an
error marker.  The claims below never depend on which texts it flags. -/
def checkForErrors (text : String) : Bool :=
  "<error>".isPrefixOf text

/-! ## Response generator (`generateAllResponses`) -/

/-- The effective temperature list: the config's `temperatures` array if
non-empty, else the single (possibly undefined) global temperature. -/
def temperaturesToRun (config : ComparisonConfig) : List (Option ℚ) :=
  match config.temperatures with
  | some l => if l.length > 0 then l.map some else [config.temperature]
  | none => [config.temperature]

/-- The effective system-prompt list: the config's `systems` array if
non-empty, else the single (possibly undefined) global system prompt. -/
def systemPromptsToRun (config : ComparisonConfig) : List (Option String) :=
  match config.systems with
  | some l => if l.length > 0 then l else [config.system]
  | none => [config.system]

/-- Truthiness of the `config.systems && config.systems.length > 0` guard. -/
def systemsNonempty (config : ComparisonConfig) : Bool :=
  match config.systems with
  | some l => l.length > 0
  | none => false

/-- Per-task resolution of the system prompt: the variant value when
permuting, else the per-prompt override if set, else the global one. -/
def resolveSystemPromptToUse (config : ComparisonConfig) (promptConfig : PromptConfig)
    (systemPromptValue : Option String) : Option String :=
  if systemsNonempty config then systemPromptValue
  else
    match promptConfig.system with
    | some s => some s
    | none => config.system

/-- Per-task resolution of the temperature, exactly the source chain
`tempValue ?? promptConfig.temperature ?? config.temperature ??
DEFAULT_TEMPERATURE`. -/
def temperatureForThisCall (config : ComparisonConfig) (promptConfig : PromptConfig)
    (tempValue : Option ℚ) : Option ℚ :=
  tempValue <|> promptConfig.temperature <|> config.temperature <|>
    some DEFAULT_TEMPERATURE

/-- The Effective Model ID of one task: the base model, a `[temp:x.y]`
tag whenever the resolved temperature is defined, and an `[sp_idx:i]` tag
when the run permutes more than one system prompt. -/
def finalEffectiveId (config : ComparisonConfig) (modelString : String)
    (temperatureOpt : Option ℚ) (sp_idx : Nat) : String :=
  let id1 :=
    match temperatureOpt with
    | some t => modelString ++ "[temp:" ++ toFixed1 t ++ "]"
    | none => modelString
  if 1 < (config.systems.getD []).length then
    id1 ++ "[sp_idx:" ++ natStr sp_idx ++ "]"
  else id1

/-- The outgoing message list: a copy of the prompt's messages, with the
resolved system prompt prepended as a system-role message when the
resolved prompt is truthy and no system-role message is present yet. -/
def messagesForLlmOf (promptMessages : List ConversationMessage)
    (systemPromptToUse : Option String) : List ConversationMessage :=
  match systemPromptToUse with
  | none => promptMessages
  | some s =>
      if s ≠ "" ∧ (promptMessages.find? (fun m => m.role == "system")).isNone then
        ⟨"system", s⟩ :: promptMessages
      else promptMessages

/-- One generation task: resolve the parameters, call the provider, and
build the `(effective id, response record)` pair that is stored in the
prompt's container. -/
def runGenerationTask (provider : Provider) (useCache : Bool)
    (config : ComparisonConfig) (promptConfig : PromptConfig)
    (promptMessages : List ConversationMessage) (modelString : String)
    (tempValue : Option ℚ) (systemPromptValue : Option String)
    (sp_idx : Nat) : String × ModelResponseData :=
  let systemPromptToUse := resolveSystemPromptToUse config promptConfig systemPromptValue
  let temperatureOpt := temperatureForThisCall config promptConfig tempValue
  let effId := finalEffectiveId config modelString temperatureOpt sp_idx
  let messagesForLlm := messagesForLlmOf promptMessages systemPromptToUse
  match provider modelString messagesForLlm (temperatureOpt.getD DEFAULT_TEMPERATURE)
      useCache with
  | Except.ok text =>
      let hasError := checkForErrors text
      (effId,
        { finalAssistantResponseText := text
          fullConversationHistory := messagesForLlm ++ [⟨"assistant", text⟩]
          hasError := hasError
          errorMessage := if hasError then some "Response contains error markers." else none
          systemPromptUsed := systemPromptToUse })
  | Except.error e =>
      let errorMessage := "Failed to get response for " ++ effId ++ ": " ++ e
      let text := "<error>" ++ errorMessage ++ "</error>"
      (effId,
        { finalAssistantResponseText := text
          fullConversationHistory := messagesForLlm ++ [⟨"assistant", text⟩]
          hasError := true
          errorMessage := some errorMessage
          systemPromptUsed := systemPromptToUse })

/-- The cartesian task inputs of one prompt, in task-creation order:
models × temperatures × indexed system prompts. -/
def taskInputs (config : ComparisonConfig) :
    List (String × (Option ℚ × (Nat × Option String))) :=
  config.models ×ˢ (temperaturesToRun config ×ˢ (systemPromptsToRun config).enum)

/-- All `(effective id, record)` pairs of one prompt, in task-creation
order (the linearization of the bounded-concurrency fan-out). -/
def promptTaskRecords (provider : Provider) (useCache : Bool)
    (config : ComparisonConfig) (promptConfig : PromptConfig)
    (promptMessages : List ConversationMessage) :
    List (String × ModelResponseData) :=
  (taskInputs config).map fun mts =>
    runGenerationTask provider useCache config promptConfig promptMessages
      mts.1 mts.2.1 mts.2.2.2 mts.2.2.1

/-- The fully populated container of one prompt. -/
def generateForPrompt (provider : Provider) (useCache : Bool)
    (config : ComparisonConfig) (promptConfig : PromptConfig)
    (promptMessages : List ConversationMessage) : PromptResponseData :=
  { promptId := promptConfig.id
    promptText := promptConfig.promptText
    initialMessages := promptMessages
    idealResponseText :=
      match promptConfig.idealResponse with
      | some s => if s = "" then none else some s
      | none => none
    modelResponses :=
      mapSetAll [] (promptTaskRecords provider useCache config promptConfig promptMessages) }

/-- The generator `generateAllResponses`: one container per prompt whose message list
is defined (prompts without messages are skipped with an error log). -/
def generateAllResponses (provider : Provider) (config : ComparisonConfig)
    (useCache : Bool) : List (String × PromptResponseData) :=
  config.prompts.foldl
    (fun acc promptConfig =>
      match promptConfig.messages with
      | none => acc
      | some promptMessages =>
          mapSet acc promptConfig.id
            (generateForPrompt provider useCache config promptConfig promptMessages))
    []

/-- Total number of Response Records across all containers. -/
def totalRecords (m : List (String × PromptResponseData)) : Nat :=
  (m.map (fun pr => pr.2.modelResponses.length)).sum

/-! ## Evaluator registry and result-bundle merge

An evaluation result bundle is a string-keyed object of named result
tables; the merge `{...combined, ...results}` never inspects the tables,
so their type is a parameter `V`. -/

/-- JavaScript object spread `{...a, ...b}`: keys of `a` in place (values
overridden by `b` where present), then the new keys of `b`. -/
def spreadMerge {V : Type} (a b : List (String × V)) : List (String × V) :=
  (a.map fun kv => (kv.1, (b.lookup kv.1).getD kv.2)) ++
    b.filter fun kv => (a.lookup kv.1).isNone

theorem lookup_append {V : Type} (l₁ l₂ : List (String × V)) (k : String) :
    (l₁ ++ l₂).lookup k = ((l₁.lookup k).orElse fun _ => l₂.lookup k) := by
  induction l₁ with
  | nil => simp [List.lookup]
  | cons hd tl ih =>
      obtain ⟨k0, v0⟩ := hd
      by_cases h : k = k0
      · subst h
        simp [List.lookup, Option.orElse]
      · have hb : (k == k0) = false := by simp [h]
        simp only [List.cons_append, List.lookup, hb]
        exact ih

theorem lookup_map_override {V : Type} (a b : List (String × V)) (k : String) :
    ((a.map fun kv => (kv.1, (b.lookup kv.1).getD kv.2)).lookup k) =
      (a.lookup k).map fun v => (b.lookup k).getD v := by
  induction a with
  | nil => simp [List.lookup]
  | cons hd tl ih =>
      obtain ⟨k0, v0⟩ := hd
      by_cases h : k = k0
      · subst h
        simp [List.lookup]
      · have hb : (k == k0) = false := by simp [h]
        simp only [List.map_cons, List.lookup, hb]
        exact ih

theorem lookup_filter_none {V : Type} (a b : List (String × V)) (k : String) :
    ((b.filter fun kv => (a.lookup kv.1).isNone).lookup k) =
      if (a.lookup k).isNone then b.lookup k else none := by
  induction b with
  | nil => simp [List.lookup]
  | cons hd tl ih =>
      obtain ⟨k0, v0⟩ := hd
      by_cases hkeep : (a.lookup k0).isNone
      · rw [List.filter_cons_of_pos (by simpa using hkeep)]
        by_cases h : k = k0
        · subst h
          simp [List.lookup, hkeep]
        · have hb : (k == k0) = false := by simp [h]
          simp only [List.lookup, hb]
          exact ih
      · rw [List.filter_cons_of_neg (by simpa using hkeep)]
        by_cases h : k = k0
        · subst h
          rw [ih, if_neg hkeep, if_neg hkeep]
        · have hb : (k == k0) = false := by simp [h]
          simp only [List.lookup, hb]
          exact ih

/-- The defining property of object spread: a lookup in `{...a, ...b}`
prefers `b` and falls back to `a`. -/
theorem lookup_spreadMerge {V : Type} (a b : List (String × V)) (k : String) :
    (spreadMerge a b).lookup k = ((b.lookup k).orElse fun _ => a.lookup k) := by
  rw [spreadMerge, lookup_append, lookup_map_override, lookup_filter_none]
  cases ha : a.lookup k <;> cases hb : b.lookup k <;> simp [Option.orElse]

/-- One evaluator as the pipeline sees it: a method tag plus an
`evaluate` call that may throw. -/
structure EvaluationInput where
  promptData : PromptResponseData
  config : ComparisonConfig
  effectiveModelIds : List String
deriving Repr

/-- The external collaborators of one pipeline run. -/
structure Env (V : Type) where
  provider : Provider
  embedEvaluate : List EvaluationInput → Except String (List (String × V))
  covEvaluate : List EvaluationInput → Except String (List (String × V))
  vEmpty : V
  now : String
  storeFullHistory : Bool

/-- The storage gateway's `saveResult(configId, fileName, document)`. -/
def SaveFn (Doc : Type) : Type := String → String → Doc → Except String Unit

/-- Modelled from the spec: the reserved ideal-model id constant
(`IDEAL_MODEL_ID` of `types/comparison_v2.ts`, not among the sources).
Only two facts about it are used: it is a fixed string, and it does not
end in the `]` that every generated Effective Model ID ends in. -/
def IDEAL_MODEL_ID : String := "IDEAL_MODEL_ID"

/-- Modelled from the spec: `toSafeTimestamp` of `timestampUtils.ts` (not
among the sources) makes an ISO timestamp filename-safe; colons and dots
become dashes.  No claim depends on the exact sanitization. -/
def toSafeTimestamp (iso : String) : String :=
  ⟨iso.data.map fun c => if c = ':' ∨ c = '.' then '-' else c⟩

/-- A per-prompt context in the final document: either the original
message list or a plain string (the raw prompt text or the sentinel). -/
inductive PromptContext where
  | msgs : List ConversationMessage → PromptContext
  | str : String → PromptContext
deriving DecidableEq, Repr

/-- The named-table part of the final document built from the merged
bundle. -/
structure EvaluationResults (V : Type) where
  similarityMatrix : Option V
  perPromptSimilarities : Option V
  llmCoverageScores : Option V
deriving DecidableEq, Repr

/-- The canonical Final Output Document (`FinalComparisonOutputV2`). -/
structure FinalComparisonOutputV2 (V : Type) where
  configId : String
  configTitle : String
  runLabel : String
  timestamp : String
  description : Option String
  sourceCommitSha : Option String
  sourceBlueprintFileName : Option String
  config : ComparisonConfig
  evalMethodsUsed : List String
  effectiveModels : List String
  modelSystemPrompts : List (String × Option String)
  promptIds : List String
  promptContexts : List (String × PromptContext)
  extractedKeyPoints : Option V
  allFinalAssistantResponses : List (String × List (String × String))
  fullConversationHistories : Option (List (String × List (String × List ConversationMessage)))
  evaluationResults : EvaluationResults V
  errors : Option (List (String × List (String × String)))
deriving DecidableEq, Repr

/-! ## Aggregator (`aggregateAndSaveResults`) -/

/-- The mutable accumulators of the aggregation loop. -/
structure AggAcc where
  promptIds : List String
  promptContexts : List (String × PromptContext)
  allFinalAssistantResponses : List (String × List (String × String))
  fullConversationHistories : List (String × List (String × List ConversationMessage))
  errors : List (String × List (String × String))
  effectiveModelsSet : List String
  modelSystemPrompts : List (String × Option String)
deriving Repr

/-- The inner loop over one container's `modelResponses`. -/
def aggStepModel (promptId : String) (acc : AggAcc)
    (entry : String × ModelResponseData) : AggAcc :=
  let effectiveModelId := entry.1
  let responseData := entry.2
  { acc with
    effectiveModelsSet := setInsert acc.effectiveModelsSet effectiveModelId
    allFinalAssistantResponses :=
      mapSet acc.allFinalAssistantResponses promptId
        (mapSet ((acc.allFinalAssistantResponses.lookup promptId).getD [])
          effectiveModelId responseData.finalAssistantResponseText)
    modelSystemPrompts :=
      mapSet acc.modelSystemPrompts effectiveModelId responseData.systemPromptUsed
    fullConversationHistories :=
      if (acc.fullConversationHistories.lookup promptId).isSome then
        mapSet acc.fullConversationHistories promptId
          (mapSet ((acc.fullConversationHistories.lookup promptId).getD [])
            effectiveModelId responseData.fullConversationHistory)
      else acc.fullConversationHistories
    errors :=
      match responseData.hasError, responseData.errorMessage with
      | true, some msg =>
          mapSet acc.errors promptId
            (mapSet ((acc.errors.lookup promptId).getD []) effectiveModelId msg)
      | _, _ => acc.errors }

/-- The outer loop over `allResponsesMap`. -/
def aggStepPrompt (storeFullHistory : Bool) (acc : AggAcc)
    (entry : String × PromptResponseData) : AggAcc :=
  let promptId := entry.1
  let promptData := entry.2
  let acc :=
    { acc with
      promptIds := acc.promptIds ++ [promptId]
      promptContexts :=
        mapSet acc.promptContexts promptId
          (if promptData.initialMessages.length > 0 then
            PromptContext.msgs promptData.initialMessages
          else
            match promptData.promptText with
            | some t => PromptContext.str t
            | none => PromptContext.str "Error: No input context found")
      allFinalAssistantResponses :=
        mapSet acc.allFinalAssistantResponses promptId
          (match promptData.idealResponseText with
           | some idealText => [(IDEAL_MODEL_ID, idealText)]
           | none => [])
      fullConversationHistories :=
        if storeFullHistory then
          mapSet acc.fullConversationHistories promptId []
        else acc.fullConversationHistories }
  promptData.modelResponses.foldl (aggStepModel promptId) acc

/-- Builds the Final Output Document from the containers and the merged
bundle; throws when the blueprint id or title is missing. -/
def buildFinalOutput {V : Type} (env : Env V) (config : ComparisonConfig)
    (runLabel : String) (allResponsesMap : List (String × PromptResponseData))
    (evaluationResults : List (String × V)) (evalMethodsUsed : List String)
    (commitSha : Option String) (blueprintFileName : Option String) :
    Except String (FinalComparisonOutputV2 V) :=
  let acc0 : AggAcc :=
    { promptIds := [], promptContexts := [], allFinalAssistantResponses := []
      fullConversationHistories := [], errors := [], effectiveModelsSet := []
      modelSystemPrompts := [] }
  let acc := allResponsesMap.foldl (aggStepPrompt env.storeFullHistory) acc0
  let hasAnyIdeal := config.prompts.any fun p =>
    match p.idealResponse with
    | some s => s ≠ ""
    | none => false
  let effectiveModelsSet :=
    if hasAnyIdeal then setInsert acc.effectiveModelsSet IDEAL_MODEL_ID
    else acc.effectiveModelsSet
  let effectiveModels := effectiveModelsSet.insertionSort (· ≤ ·)
  let safeTimestamp := toSafeTimestamp env.now
  let resolvedConfigId := config.id.getD ""
  let resolvedConfigTitle := config.title.getD ""
  if resolvedConfigId = "" then
    Except.error "Blueprint ID is missing unexpectedly after validation."
  else if resolvedConfigTitle = "" then
    Except.error "Blueprint Title is missing unexpectedly after validation."
  else
    Except.ok
      { configId := resolvedConfigId
        configTitle := resolvedConfigTitle
        runLabel := runLabel
        timestamp := safeTimestamp
        description := config.description
        sourceCommitSha := commitSha
        sourceBlueprintFileName := blueprintFileName
        config := config
        evalMethodsUsed := evalMethodsUsed
        effectiveModels := effectiveModels
        modelSystemPrompts := acc.modelSystemPrompts
        promptIds := acc.promptIds.insertionSort (· ≤ ·)
        promptContexts := acc.promptContexts
        extractedKeyPoints := evaluationResults.lookup "extractedKeyPoints"
        allFinalAssistantResponses := acc.allFinalAssistantResponses
        fullConversationHistories :=
          if env.storeFullHistory then some acc.fullConversationHistories else none
        evaluationResults :=
          { similarityMatrix := evaluationResults.lookup "similarityMatrix"
            perPromptSimilarities := evaluationResults.lookup "perPromptSimilarities"
            llmCoverageScores := evaluationResults.lookup "llmCoverageScores" }
        errors := if acc.errors.length > 0 then some acc.errors else none }

/-- The aggregator `aggregateAndSaveResults`: build the document, then hand it to the
storage gateway; a save failure is caught and reported as a `none` file
name, never re-thrown. -/
def aggregateAndSaveResults {V : Type} (env : Env V) (save : SaveFn (FinalComparisonOutputV2 V))
    (config : ComparisonConfig) (runLabel : String)
    (allResponsesMap : List (String × PromptResponseData))
    (evaluationResults : List (String × V)) (evalMethodsUsed : List String)
    (commitSha : Option String) (blueprintFileName : Option String) :
    Except String (FinalComparisonOutputV2 V × Option String) :=
  match buildFinalOutput env config runLabel allResponsesMap evaluationResults
      evalMethodsUsed commitSha blueprintFileName with
  | Except.error e => Except.error e
  | Except.ok finalOutput =>
      let fileName := runLabel ++ "_" ++ toSafeTimestamp env.now ++ "_comparison.json"
      match save finalOutput.configId fileName finalOutput with
      | Except.ok _ => Except.ok (finalOutput, some fileName)
      | Except.error _ => Except.ok (finalOutput, none)

/-! ## Pipeline (`executeComparisonPipeline`) -/

/-- The fixed evaluator registry in its configured order, filtered by the
requested method tags. -/
def chosenEvaluators {V : Type} (env : Env V) (evalMethods : List String) :
    List (String × (List EvaluationInput → Except String (List (String × V)))) :=
  ([("embedding", env.embedEvaluate), ("llm-coverage", env.covEvaluate)]).filter
    fun e => evalMethods.contains e.1

/-- The initially empty combined bundle (all four tables present and
empty). -/
def initialCombinedResults {V : Type} (env : Env V) : List (String × V) :=
  [("llmCoverageScores", env.vEmpty), ("similarityMatrix", env.vEmpty),
   ("perPromptSimilarities", env.vEmpty), ("extractedKeyPoints", env.vEmpty)]

/-- The sequential evaluator loop: each evaluator runs to completion (a
thrown error aborts the pipeline) and its partial bundle is spread onto
the running bundle. -/
def runEvaluatorLoop {V : Type}
    (evaluators : List (String × (List EvaluationInput → Except String (List (String × V)))))
    (inputs : List EvaluationInput) (combined : List (String × V)) :
    Except String (List (String × V)) :=
  match evaluators with
  | [] => Except.ok combined
  | e :: rest =>
      match e.2 inputs with
      | Except.error err => Except.error err
      | Except.ok results => runEvaluatorLoop rest inputs (spreadMerge combined results)

/-- The evaluation inputs: one view per container. -/
def evaluationInputsOf (config : ComparisonConfig)
    (allResponsesMap : List (String × PromptResponseData)) : List EvaluationInput :=
  allResponsesMap.map fun pr =>
    { promptData := pr.2
      config := config
      effectiveModelIds := pr.2.modelResponses.map Prod.fst }

/-- The pipeline `executeComparisonPipeline`: generate (unless given), evaluate,
aggregate, save. -/
def executeComparisonPipeline {V : Type} (env : Env V)
    (save : SaveFn (FinalComparisonOutputV2 V)) (config : ComparisonConfig)
    (runLabel : String) (evalMethods : List String) (useCache : Bool)
    (existingResponsesMap : Option (List (String × PromptResponseData)))
    (commitSha : Option String) (blueprintFileName : Option String) :
    Except String (FinalComparisonOutputV2 V × Option String) :=
  let allResponsesMap :=
    existingResponsesMap.getD (generateAllResponses env.provider config useCache)
  let evaluationInputs := evaluationInputsOf config allResponsesMap
  match runEvaluatorLoop (chosenEvaluators env evalMethods) evaluationInputs
      (initialCombinedResults env) with
  | Except.error e => Except.error e
  | Except.ok combinedEvaluationResults =>
      aggregateAndSaveResults env save config runLabel allResponsesMap
        combinedEvaluationResults evalMethods commitSha blueprintFileName

/-! ## Tag normalizer (`src/app/utils/tagUtils.ts`) -/

/-- Whitespace, as matched by the regex class in `normalizeTag` (the
core ASCII whitespace set; exotic Unicode spaces are out of scope). -/
def isWsJs (c : Char) : Bool := c.isWhitespace

/-- JavaScript `toLowerCase` on the character range `normalizeTag` can
observe (ASCII). -/
def toLowerJs (c : Char) : Char :=
  if 65 ≤ c.toNat ∧ c.toNat ≤ 90 then Char.ofNat (c.toNat + 32) else c

theorem length_dropWhile_le {α : Type} (p : α → Bool) (l : List α) :
    (l.dropWhile p).length ≤ l.length := by
  induction l with
  | nil => simp [List.dropWhile]
  | cons hd tl ih =>
      rw [List.dropWhile]
      cases p hd
      · simp
      · exact le_trans ih (by simp)

/-- JavaScript `.replace(/\s+/g, '-')`: each maximal whitespace run becomes one
dash.  The flag records whether the previous character was part of a
whitespace run whose dash has already been emitted. -/
def collapseWsGo (inRun : Bool) : List Char → List Char
  | [] => []
  | c :: rest =>
      if isWsJs c then
        if inRun then collapseWsGo true rest
        else '-' :: collapseWsGo true rest
      else c :: collapseWsGo false rest

def collapseWs (l : List Char) : List Char := collapseWsGo false l

/-- JavaScript `.trim()`: drop whitespace from both ends. -/
def trimJs (l : List Char) : List Char :=
  (((l.dropWhile isWsJs).reverse.dropWhile isWsJs)).reverse

/-- The character class kept by `.replace(/[^a-z0-9-]/g, '')`. -/
def allowedTagChar (c : Char) : Bool :=
  (97 ≤ c.toNat ∧ c.toNat ≤ 122) ∨ (48 ≤ c.toNat ∧ c.toNat ≤ 57) ∨ c = '-'

/-- The normalizer `normalizeTag`: trim, lower-case, collapse whitespace runs to dashes,
drop everything outside `[a-z0-9-]`; the empty string short-circuits. -/
def normalizeTag (tag : String) : String :=
  if tag = "" then ""
  else ⟨((collapseWs ((trimJs tag.data).map toLowerJs))).filter allowedTagChar⟩

/-! ## Effective Model ID parser

Modelled from the spec: `parseEffectiveModelId` lives in
`src/app/utils/modelIdUtils.ts`, which is not among the sources (only its
test file is).  Following §4.1 of the spec, the parser repeatedly
inspects the tail of the string for one trailing bracketed tag matching
`[sys:<token>]` or `[temp:<number>]`, strips it and records it by tag
type (assignment, so an inner tag of the same type overwrites an outer
one), until the tail matches neither; the remainder is the base id.  The
legacy alias `IDEAL_BENCHMARK` maps to the fixed ideal-model base id
regardless of suffixes, so the alias test applies to the stripped base
id, not to the whole input. -/

/-- Scans a reversed string up to the nearest `[`; fails on a stray `]`
or a missing `[` (the tag content must be bracket-free). -/
def takeToBracket : List Char → Option (List Char × List Char)
  | [] => none
  | c :: rest =>
      if c = '[' then some ([], rest)
      else if c = ']' then none
      else (takeToBracket rest).map fun p => (c :: p.1, p.2)

theorem takeToBracket_length {l : List Char} {a b : List Char}
    (h : takeToBracket l = some (a, b)) : l.length = a.length + b.length + 1 := by
  induction l generalizing a b with
  | nil => simp [takeToBracket] at h
  | cons c rest ih =>
      by_cases hc : c = '['
      · rw [takeToBracket, if_pos hc] at h
        have h1 : a = [] ∧ b = rest := by
          constructor
          · exact ((Prod.mk.injEq _ _ _ _).mp (Option.some.inj h)).1.symm
          · exact ((Prod.mk.injEq _ _ _ _).mp (Option.some.inj h)).2.symm
        obtain ⟨rfl, rfl⟩ := h1
        simp
      · by_cases hc2 : c = ']'
        · rw [takeToBracket, if_neg hc, if_pos hc2] at h
          simp at h
        · rw [takeToBracket, if_neg hc, if_neg hc2] at h
          cases htb : takeToBracket rest with
          | none => rw [htb] at h; simp at h
          | some p =>
              obtain ⟨p1, p2⟩ := p
              rw [htb] at h
              replace h : some (c :: p1, p2) = some (a, b) := h
              have h1 : a = c :: p1 ∧ b = p2 := by
                constructor
                · exact ((Prod.mk.injEq _ _ _ _).mp (Option.some.inj h)).1.symm
                · exact ((Prod.mk.injEq _ _ _ _).mp (Option.some.inj h)).2.symm
              obtain ⟨rfl, rfl⟩ := h1
              have := ih htb
              simp only [List.length_cons]
              omega

/-- A decimal-number string: digits, optionally a dot and more digits. -/
def isNumString (l : List Char) : Bool :=
  let p := l.span (fun c => c.isDigit)
  match p.2 with
  | [] => ¬ p.1 = []
  | '.' :: rest => ¬ p.1 = [] ∧ ¬ rest = [] ∧ rest.all (fun c => c.isDigit)
  | _ => false

inductive TagKind where
  | sys
  | temp
deriving DecidableEq, Repr

/-- Classifies a bracket-free tag content as `sys:<token>` (token
non-empty) or `temp:<number>`. -/
def matchTagContent (content : List Char) : Option (TagKind × List Char) :=
  if content.take 4 = ['s', 'y', 's', ':'] ∧ ¬ content.drop 4 = [] then
    some (TagKind.sys, content.drop 4)
  else if content.take 5 = ['t', 'e', 'm', 'p', ':'] ∧ isNumString (content.drop 5) then
    some (TagKind.temp, content.drop 5)
  else none

/-- Tries to strip one trailing bracketed tag from a reversed string;
returns the remaining reversed head, the tag kind and the tag payload. -/
def stripLastTagRev (rev : List Char) : Option (List Char × TagKind × List Char) :=
  match rev with
  | [] => none
  | c :: rest =>
      if c = ']' then
        match takeToBracket rest with
        | some (contentRev, preRev) =>
            match matchTagContent contentRev.reverse with
            | some (k, payload) => some (preRev, k, payload)
            | none => none
        | none => none
      else none

theorem stripLastTagRev_length {rev pre : List Char} {k : TagKind} {tok : List Char}
    (h : stripLastTagRev rev = some (pre, k, tok)) : pre.length < rev.length := by
  cases rev with
  | nil => simp [stripLastTagRev] at h
  | cons c rest =>
      rw [stripLastTagRev] at h
      by_cases hc : c = ']'
      · rw [if_pos hc] at h
        cases htb : takeToBracket rest with
        | none => rw [htb] at h; simp at h
        | some p =>
            obtain ⟨contentRev, preRev⟩ := p
            rw [htb] at h
            replace h :
                (match matchTagContent contentRev.reverse with
                  | some (k, payload) => some (preRev, k, payload)
                  | none => none) = some (pre, k, tok) := h
            have hlen := takeToBracket_length htb
            cases hmc : matchTagContent contentRev.reverse with
            | none => rw [hmc] at h; simp at h
            | some kp =>
                obtain ⟨k0, payload0⟩ := kp
                rw [hmc] at h
                replace h : some (preRev, k0, payload0) = some (pre, k, tok) := h
                have hpre : pre = preRev :=
                  ((Prod.mk.injEq _ _ _ _).mp (Option.some.inj h)).1.symm
                subst hpre
                simp only [List.length_cons]
                omega
      · rw [if_neg hc] at h
        simp at h

/-- The tail-stripping loop of the parser, on reversed characters, with
the recorded tag payloads as accumulators.  Structural recursion on a
fuel bound (each stripped tag consumes at least one character, so
`rev.length + 1` fuel always suffices; see `parseLoopGo_fuel`). -/
def parseLoopGo (fuel : Nat) (rev : List Char)
    (sysAcc tempAcc : Option (List Char)) :
    List Char × Option (List Char) × Option (List Char) :=
  match fuel with
  | 0 => (rev, sysAcc, tempAcc)
  | fuel + 1 =>
      match stripLastTagRev rev with
      | some (preRev, TagKind.sys, tok) => parseLoopGo fuel preRev (some tok) tempAcc
      | some (preRev, TagKind.temp, num) => parseLoopGo fuel preRev sysAcc (some num)
      | none => (rev, sysAcc, tempAcc)

/-- Unfolding `parseLoopGo` one step when a `sys` tag is stripped. -/
theorem parseLoopGo_strip_sys {rev pre tok : List Char}
    (fuel : Nat) (sysAcc tempAcc : Option (List Char))
    (h : stripLastTagRev rev = some (pre, TagKind.sys, tok)) :
    parseLoopGo (fuel + 1) rev sysAcc tempAcc =
      parseLoopGo fuel pre (some tok) tempAcc := by
  rw [parseLoopGo, h]

/-- Unfolding `parseLoopGo` one step when a `temp` tag is stripped. -/
theorem parseLoopGo_strip_temp {rev pre num : List Char}
    (fuel : Nat) (sysAcc tempAcc : Option (List Char))
    (h : stripLastTagRev rev = some (pre, TagKind.temp, num)) :
    parseLoopGo (fuel + 1) rev sysAcc tempAcc =
      parseLoopGo fuel pre sysAcc (some num) := by
  rw [parseLoopGo, h]

/-- The loop `parseLoopGo` stops as soon as no trailing tag matches, with any
fuel. -/
theorem parseLoopGo_none {rev : List Char}
    (fuel : Nat) (sysAcc tempAcc : Option (List Char))
    (h : stripLastTagRev rev = none) :
    parseLoopGo fuel rev sysAcc tempAcc = (rev, sysAcc, tempAcc) := by
  cases fuel with
  | zero => rfl
  | succ fuel => rw [parseLoopGo, h]

/-- The parsed triple: base id, system-prompt hash, temperature (kept as
the numeral written in the tag). -/
structure ParsedModelId where
  baseId : String
  systemPromptHash : Option String
  temperature : Option String
deriving DecidableEq, Repr

/-- Modelled from the spec: `parseEffectiveModelId`.  The tail tags are
stripped and recorded; a stripped base id equal to the legacy alias
`IDEAL_BENCHMARK` maps to the fixed ideal-model base id, whatever
suffixes were present. -/
def parseEffectiveModelId (modelId : String) : ParsedModelId :=
  let r := parseLoopGo (modelId.data.length + 1) modelId.data.reverse none none
  let base : String := ⟨r.1.reverse⟩
  { baseId := if base = "IDEAL_BENCHMARK" then IDEAL_MODEL_ID else base
    systemPromptHash := r.2.1.map fun l => ⟨l⟩
    temperature := r.2.2.map fun l => ⟨l⟩ }

/-! ## Splitting a string at its last opening bracket

Both the Effective Model ID injectivity argument (C1) and the parser
laws (C3) rest on one fact: appending a bracket-free tail after a `[`
determines the decomposition uniquely. -/

theorem split_at_first_lbracket {t1 t2 r1 r2 : List Char}
    (h1 : '[' ∉ t1) (h2 : '[' ∉ t2)
    (h : t1 ++ '[' :: r1 = t2 ++ '[' :: r2) : t1 = t2 ∧ r1 = r2 := by
  induction t1 generalizing t2 with
  | nil =>
      cases t2 with
      | nil => exact ⟨rfl, by simpa using h⟩
      | cons d t2 =>
          exfalso
          have hd : '[' = d := (List.cons.inj (by simpa using h)).1
          exact h2 (by simp [← hd])
  | cons c t1 ih =>
      cases t2 with
      | nil =>
          exfalso
          have hc : c = '[' := (List.cons.inj (by simpa using h)).1
          exact h1 (by simp [hc])
      | cons d t2 =>
          obtain ⟨hcd, htail⟩ := List.cons.inj (by simpa using h)
          subst hcd
          obtain ⟨ht, hr⟩ := ih (fun hc => h1 (List.mem_cons_of_mem _ hc))
            (fun hc => h2 (List.mem_cons_of_mem _ hc)) htail
          exact ⟨by rw [ht], hr⟩

theorem split_at_last_lbracket {m1 m2 i1 i2 : List Char}
    (h1 : '[' ∉ i1) (h2 : '[' ∉ i2)
    (h : m1 ++ '[' :: i1 = m2 ++ '[' :: i2) : m1 = m2 ∧ i1 = i2 := by
  have hrev := congrArg List.reverse h
  rw [List.reverse_append, List.reverse_append, List.reverse_cons,
    List.reverse_cons, List.append_assoc, List.append_assoc] at hrev
  simp only [List.singleton_append] at hrev
  obtain ⟨hi, hm⟩ := split_at_first_lbracket
    (fun hc => h1 (List.mem_reverse.mp hc))
    (fun hc => h2 (List.mem_reverse.mp hc)) hrev
  exact ⟨List.reverse_injective hm, List.reverse_injective hi⟩

theorem natStr_no_lbracket (n : Nat) : '[' ∉ (natStr n).data := by
  intro hmem
  have := (natStrGo_digits (n + 1) n '[' hmem).2
  have h91 : ('[' : Char).toNat = 91 := rfl
  omega

theorem toFixed1_no_lbracket (q : ℚ) : '[' ∉ (toFixed1 q).data := by
  intro hmem
  rw [toFixed1] at hmem
  simp only [String.data_append] at hmem
  rcases List.mem_append.mp hmem with hmem | hdot
  · rcases List.mem_append.mp hmem with hmem | hfrac
    · rcases List.mem_append.mp hmem with hsign | hint
      · revert hsign
        split <;> decide
      · have := (natStrGo_digits _ _ '[' hint).2
        have h91 : ('[' : Char).toNat = 91 := rfl
        omega
    · exact absurd hfrac (by decide)
  · have := (natStrGo_digits _ _ '[' hdot).2
    have h91 : ('[' : Char).toNat = 91 := rfl
    omega

/-- Uniqueness of the `[temp:...]` decomposition when the rendered
temperature contains no opening bracket. -/
theorem tempTag_inj {m1 m2 s1 s2 : String}
    (hs1 : '[' ∉ s1.data) (hs2 : '[' ∉ s2.data)
    (h : m1 ++ "[temp:" ++ s1 ++ "]" = m2 ++ "[temp:" ++ s2 ++ "]") :
    m1 = m2 ∧ s1 = s2 := by
  have hd := congrArg String.data h
  simp only [String.data_append] at hd
  have hshape : ∀ m s : String,
      m.data ++ ("[temp:" : String).data ++ s.data ++ ("]" : String).data =
        m.data ++ '[' :: (['t', 'e', 'm', 'p', ':'] ++ (s.data ++ [']'])) := by
    intro m s
    show m.data ++ ['[', 't', 'e', 'm', 'p', ':'] ++ s.data ++ [']'] = _
    simp
  rw [hshape, hshape] at hd
  have hnb : ∀ s : String, '[' ∉ s.data →
      '[' ∉ ['t', 'e', 'm', 'p', ':'] ++ (s.data ++ [']']) := by
    intro s hs hc
    rcases List.mem_append.mp hc with hh | ht
    · exact absurd hh (by decide)
    · rcases List.mem_append.mp ht with hh | ht
      · exact hs hh
      · exact absurd ht (by decide)
  obtain ⟨hm, hi⟩ := split_at_last_lbracket (hnb s1 hs1) (hnb s2 hs2) hd
  refine ⟨String.ext hm, String.ext ?_⟩
  have h5 := List.append_cancel_left hi
  exact List.append_cancel_right h5

/-- Uniqueness of the `[sp_idx:...]` decomposition. -/
theorem spTag_inj {a1 a2 : String} {i1 i2 : Nat}
    (h : a1 ++ "[sp_idx:" ++ natStr i1 ++ "]" = a2 ++ "[sp_idx:" ++ natStr i2 ++ "]") :
    a1 = a2 ∧ i1 = i2 := by
  have hd := congrArg String.data h
  simp only [String.data_append] at hd
  have hshape : ∀ (a : String) (i : Nat),
      a.data ++ ("[sp_idx:" : String).data ++ (natStr i).data ++ ("]" : String).data =
        a.data ++ '[' :: (['s', 'p', '_', 'i', 'd', 'x', ':'] ++ ((natStr i).data ++ [']'])) := by
    intro a i
    show a.data ++ ['[', 's', 'p', '_', 'i', 'd', 'x', ':'] ++ (natStr i).data ++ [']'] = _
    simp
  rw [hshape, hshape] at hd
  have hnb : ∀ i : Nat,
      '[' ∉ ['s', 'p', '_', 'i', 'd', 'x', ':'] ++ ((natStr i).data ++ [']']) := by
    intro i hc
    rcases List.mem_append.mp hc with hh | ht
    · exact absurd hh (by decide)
    · rcases List.mem_append.mp ht with hh | ht
      · exact natStr_no_lbracket i hh
      · exact absurd ht (by decide)
  obtain ⟨ha, hi⟩ := split_at_last_lbracket (hnb i1) (hnb i2) hd
  refine ⟨String.ext ha, ?_⟩
  have h7 := List.append_cancel_left hi
  have h8 := List.append_cancel_right h7
  exact natStr_injective (String.ext h8)

/-! ## Facts about the tag normalizer -/

theorem allowed_not_ws {c : Char} (h : allowedTagChar c = true) : isWsJs c = false := by
  cases hw : isWsJs c
  · rfl
  · exfalso
    have hd : ((c = ' ' ∨ c = '\t') ∨ c = '\x0d') ∨ c = '\n' := by
      simpa [isWsJs, Char.isWhitespace] using hw
    rcases hd with ((rfl | rfl) | rfl) | rfl <;> exact absurd h (by decide)

theorem allowed_toLowerJs {c : Char} (h : allowedTagChar c = true) :
    toLowerJs c = c := by
  have hd : (97 ≤ c.toNat ∧ c.toNat ≤ 122) ∨ (48 ≤ c.toNat ∧ c.toNat ≤ 57) ∨ c = '-' := by
    simpa [allowedTagChar] using h
  rw [toLowerJs, if_neg]
  rcases hd with h1 | h2 | rfl
  · omega
  · omega
  · decide

theorem dropWhile_eq_self_of_not {l : List Char} (h : ∀ c ∈ l, isWsJs c = false) :
    l.dropWhile isWsJs = l := by
  cases l with
  | nil => rfl
  | cons hd tl =>
      rw [List.dropWhile]
      rw [h hd (by simp)]

theorem trimJs_eq_self {l : List Char} (h : ∀ c ∈ l, isWsJs c = false) :
    trimJs l = l := by
  rw [trimJs, dropWhile_eq_self_of_not h,
    dropWhile_eq_self_of_not (fun c hc => h c (List.mem_reverse.mp hc)),
    List.reverse_reverse]

theorem collapseWs_eq_self {l : List Char} (h : ∀ c ∈ l, isWsJs c = false) :
    collapseWs l = l := by
  rw [collapseWs]
  induction l with
  | nil => rfl
  | cons hd tl ih =>
      rw [collapseWsGo, if_neg (by rw [h hd (by simp)]; simp)]
      rw [ih (fun c hc => h c (by simp [hc]))]

theorem map_toLowerJs_eq_self {l : List Char} (h : ∀ c ∈ l, allowedTagChar c = true) :
    l.map toLowerJs = l := by
  induction l with
  | nil => rfl
  | cons hd tl ih =>
      rw [List.map_cons, allowed_toLowerJs (h hd (by simp)),
        ih (fun c hc => h c (by simp [hc]))]

theorem normalizeTag_allowed (t : String) :
    ∀ c ∈ (normalizeTag t).data, allowedTagChar c = true := by
  intro c hc
  rw [normalizeTag] at hc
  by_cases h0 : t = ""
  · rw [if_pos h0] at hc
    simp at hc
  · rw [if_neg h0] at hc
    exact List.of_mem_filter hc

/-! ## Facts about per-task parameter resolution -/

theorem temperatureForThisCall_isSome (config : ComparisonConfig)
    (promptConfig : PromptConfig) (tempValue : Option ℚ) :
    ∃ t, temperatureForThisCall config promptConfig tempValue = some t := by
  cases tempValue with
  | some t => exact ⟨t, rfl⟩
  | none =>
      cases hp : promptConfig.temperature with
      | some t => exact ⟨t, by simp [temperatureForThisCall, hp]⟩
      | none =>
          cases hc : config.temperature with
          | some t => exact ⟨t, by simp [temperatureForThisCall, hp, hc]⟩
          | none => exact ⟨DEFAULT_TEMPERATURE, by simp [temperatureForThisCall, hp, hc]⟩

/-- C9: the Effective Model ID of every generation task carries a
`[temp:t]` tag in which `t` is the resolved temperature rendered by
`toFixed(1)` — never omitted, because the temperature fallback chain
always yields a defined value — and it carries an `[sp_idx:i]` suffix
exactly when the configuration defines more than one system-prompt
variant. -/
theorem effective_id_temp_tag_and_sp_idx (config : ComparisonConfig)
    (promptConfig : PromptConfig) (tempValue : Option ℚ) (modelString : String)
    (sp_idx : Nat) :
    ∃ t, temperatureForThisCall config promptConfig tempValue = some t ∧
      finalEffectiveId config modelString
          (temperatureForThisCall config promptConfig tempValue) sp_idx =
        (if 1 < (config.systems.getD []).length then
          modelString ++ "[temp:" ++ toFixed1 t ++ "]" ++ "[sp_idx:" ++ natStr sp_idx ++ "]"
        else modelString ++ "[temp:" ++ toFixed1 t ++ "]") := by
  obtain ⟨t, ht⟩ := temperatureForThisCall_isSome config promptConfig tempValue
  refine ⟨t, ht, ?_⟩
  rw [ht]
  rfl

/-- The temperature precedence chain as the specification words it:
the value drawn from the `temperatures` array if one was drawn, else the
per-prompt override, else the global temperature, else the fixed default.
This is the refinement-comparison definition written from the spec's
words, to be compared with the source's `temperatureForThisCall`. -/
def specTemperaturePrecedence (config : ComparisonConfig)
    (promptConfig : PromptConfig) (arrayValue : Option ℚ) : ℚ :=
  ((arrayValue <|> promptConfig.temperature) <|> config.temperature).getD
    DEFAULT_TEMPERATURE

/-- A blueprint with no `temperatures` array, a global temperature of 0.9
and a per-prompt override of 0.2: the input on which the source deviates
from its own comment (and from the claim). -/
def c5Prompt : PromptConfig :=
  { id := "p1", promptText := none
    messages := some [⟨"user", "hi"⟩]
    idealResponse := none, system := none
    temperature := some (mkRat 1 5) }

def c5Config : ComparisonConfig :=
  { id := some "c5", title := some "C5", description := none
    models := ["m"]
    prompts := [c5Prompt]
    temperature := some (mkRat 9 10), temperatures := none
    system := none, systems := none, concurrency := none }

/-- C5: with no `temperatures` array the single enumerated `tempValue` is
already the global temperature, so the global wins over the per-prompt
override, contradicting the claimed chain (array value, else per-prompt
override, else global, else default), which here resolves to 0.2.  The
generated Effective Model ID `m[temp:0.9]` records the divergence. -/
theorem temperature_precedence_code_bug :
    temperaturesToRun c5Config = [some (mkRat 9 10)] ∧
    c5Prompt.temperature = some (mkRat 1 5) ∧
    temperatureForThisCall c5Config c5Prompt (some (mkRat 9 10)) = some (mkRat 9 10) ∧
    specTemperaturePrecedence c5Config c5Prompt none = mkRat 1 5 ∧
    (mkRat 9 10 ≠ mkRat 1 5) ∧
    (generateAllResponses (fun _ _ _ _ => Except.ok "") c5Config false).map
        (fun pr => keysOf pr.2.modelResponses) = [["m[temp:0.9]"]] := by
  refine ⟨by decide, by decide, by decide, by decide, by decide, by decide⟩

/-- The messages and blueprint of the C6 counterexample: an empty-string
global system prompt and a prompt without a system-role message. -/
def c6Messages : List ConversationMessage := [⟨"user", "hi"⟩]

def c6Prompt : PromptConfig :=
  { id := "p1", promptText := none
    messages := some c6Messages
    idealResponse := none, system := none, temperature := none }

def c6Config : ComparisonConfig :=
  { id := some "c6", title := some "C6", description := none
    models := ["m"]
    prompts := [c6Prompt]
    temperature := none, temperatures := none
    system := some "", systems := none, concurrency := none }

/-- C6 counterexample: a task whose resolved system prompt is the defined
(but falsy) empty string, whose prompt messages contain no system-role
message, and whose outgoing message list nevertheless gets nothing
prepended — refuting the claimed "if and only if". -/
theorem system_prompt_prepend_claim_false :
    resolveSystemPromptToUse c6Config c6Prompt none = some "" ∧
    (∀ m ∈ c6Messages, m.role ≠ "system") ∧
    ¬ (messagesForLlmOf c6Messages (resolveSystemPromptToUse c6Config c6Prompt none) =
        ⟨"system", ""⟩ :: c6Messages) ∧
    messagesForLlmOf c6Messages (resolveSystemPromptToUse c6Config c6Prompt none) =
      c6Messages := by
  refine ⟨by decide, by decide, by decide, by decide⟩

/-- C6 as amended: the resolved system prompt is prepended as a
system-role message exactly when it is truthy (defined and non-empty)
and the prompt's own messages contain no system-role message; in every
other case the message list is passed unchanged. -/
theorem system_prompt_prepend_characterization
    (promptMessages : List ConversationMessage) (sys : Option String) :
    messagesForLlmOf promptMessages sys =
      if sys ≠ none ∧ sys ≠ some "" ∧ (∀ m ∈ promptMessages, m.role ≠ "system") then
        ⟨"system", sys.getD ""⟩ :: promptMessages
      else promptMessages := by
  cases sys with
  | none => simp [messagesForLlmOf]
  | some s =>
      have hc : (s ≠ "" ∧ (promptMessages.find? (fun m => m.role == "system")).isNone) ↔
          (some s ≠ none ∧ some s ≠ some "" ∧ (∀ m ∈ promptMessages, m.role ≠ "system")) := by
        rw [Option.isNone_iff_eq_none, List.find?_eq_none]
        simp
      calc messagesForLlmOf promptMessages (some s)
          = if s ≠ "" ∧ (promptMessages.find? (fun m => m.role == "system")).isNone then
              ⟨"system", s⟩ :: promptMessages
            else promptMessages := rfl
        _ = _ := by
              rw [if_congr hc rfl rfl]
              rfl

/-- Non-emptiness of the synthesized provider-failure message. -/
theorem failMsg_ne_empty (a b : String) :
    ("Failed to get response for " ++ a ++ ": " ++ b) ≠ "" := by
  intro heq
  have hlen := congrArg String.length heq
  rw [String.length_append, String.length_append, String.length_append] at hlen
  have h27 : ("Failed to get response for " : String).length = 27 := rfl
  have h0 : ("" : String).length = 0 := rfl
  omega

/-- C4: when the provider call of a generation task throws, the stored
Response Record has `hasError = true`, a non-empty error message, an
error-wrapped final text, and a full conversation history equal to the
outgoing message list extended with exactly one trailing assistant-role
turn carrying that text. -/
theorem provider_throw_record_wellformed (provider : Provider) (useCache : Bool)
    (config : ComparisonConfig) (promptConfig : PromptConfig)
    (promptMessages : List ConversationMessage) (modelString : String)
    (tempValue : Option ℚ) (systemPromptValue : Option String) (sp_idx : Nat)
    (emsg : String)
    (h : provider modelString
        (messagesForLlmOf promptMessages
          (resolveSystemPromptToUse config promptConfig systemPromptValue))
        ((temperatureForThisCall config promptConfig tempValue).getD DEFAULT_TEMPERATURE)
        useCache = Except.error emsg) :
    ∃ record,
      runGenerationTask provider useCache config promptConfig promptMessages
          modelString tempValue systemPromptValue sp_idx =
        (finalEffectiveId config modelString
          (temperatureForThisCall config promptConfig tempValue) sp_idx, record) ∧
      record.hasError = true ∧
      (∃ m, record.errorMessage = some m ∧ m ≠ "" ∧
        record.finalAssistantResponseText = "<error>" ++ m ++ "</error>") ∧
      record.fullConversationHistory =
        messagesForLlmOf promptMessages
            (resolveSystemPromptToUse config promptConfig systemPromptValue) ++
          [⟨"assistant", record.finalAssistantResponseText⟩] := by
  simp only [runGenerationTask]
  rw [h]
  exact ⟨_, rfl, rfl, ⟨_, rfl, failMsg_ne_empty _ _, rfl⟩, rfl⟩

/-- C4 witness: the theorem applied to a concrete always-throwing
provider and a one-message prompt. -/
theorem provider_throw_record_wellformed_witness :
    ∃ record,
      runGenerationTask (fun _ _ _ _ => Except.error "boom") false c6Config c6Prompt
          c6Messages "m" none none 0 =
        (finalEffectiveId c6Config "m"
          (temperatureForThisCall c6Config c6Prompt none) 0, record) ∧
      record.hasError = true ∧
      (∃ m, record.errorMessage = some m ∧ m ≠ "" ∧
        record.finalAssistantResponseText = "<error>" ++ m ++ "</error>") ∧
      record.fullConversationHistory =
        messagesForLlmOf c6Messages
            (resolveSystemPromptToUse c6Config c6Prompt none) ++
          [⟨"assistant", record.finalAssistantResponseText⟩] :=
  provider_throw_record_wellformed (fun _ _ _ _ => Except.error "boom") false
    c6Config c6Prompt c6Messages "m" none none 0 "boom" rfl

/-! ## Facts about the evaluator loop and the pipeline -/

/-- C7: with both registry evaluators chosen, the pipeline's evaluator
loop runs them sequentially in the registry's configured order
(embedding first, llm-coverage second) and merges each partial bundle by
shallow overwrite, so a table key produced by both evaluators ends up
with the later evaluator's value. -/
theorem evaluator_merge_later_wins {V : Type} (env : Env V)
    (inputs : List EvaluationInput) (evalMethods : List String)
    (k : String) (v1 v2 : V) (b1 b2 : List (String × V))
    (h1 : evalMethods.contains "embedding" = true)
    (h2 : evalMethods.contains "llm-coverage" = true)
    (he : env.embedEvaluate inputs = Except.ok b1)
    (hc : env.covEvaluate inputs = Except.ok b2)
    (_hk1 : b1.lookup k = some v1)
    (hk2 : b2.lookup k = some v2) :
    chosenEvaluators env evalMethods =
      [("embedding", env.embedEvaluate), ("llm-coverage", env.covEvaluate)] ∧
    runEvaluatorLoop (chosenEvaluators env evalMethods) inputs
        (initialCombinedResults env) =
      Except.ok (spreadMerge (spreadMerge (initialCombinedResults env) b1) b2) ∧
    (spreadMerge (spreadMerge (initialCombinedResults env) b1) b2).lookup k =
      some v2 := by
  have m1 : "embedding" ∈ evalMethods := by simpa using h1
  have m2 : "llm-coverage" ∈ evalMethods := by simpa using h2
  have hch : chosenEvaluators env evalMethods =
      [("embedding", env.embedEvaluate), ("llm-coverage", env.covEvaluate)] := by
    simp [chosenEvaluators, m1, m2]
  refine ⟨hch, ?_, ?_⟩
  · rw [hch]
    simp only [runEvaluatorLoop, he, hc]
  · rw [lookup_spreadMerge, hk2]
    rfl

def c7Env : Env Nat :=
  { provider := fun _ _ _ _ => Except.ok ""
    embedEvaluate := fun _ => Except.ok [("similarityMatrix", 1)]
    covEvaluate := fun _ => Except.ok [("similarityMatrix", 2)]
    vEmpty := 0, now := "", storeFullHistory := true }

/-- C7 witness: the theorem applied to two concrete evaluators that both
produce the `similarityMatrix` table. -/
theorem evaluator_merge_later_wins_witness :
    chosenEvaluators c7Env ["embedding", "llm-coverage"] =
      [("embedding", c7Env.embedEvaluate), ("llm-coverage", c7Env.covEvaluate)] ∧
    runEvaluatorLoop (chosenEvaluators c7Env ["embedding", "llm-coverage"]) []
        (initialCombinedResults c7Env) =
      Except.ok (spreadMerge (spreadMerge (initialCombinedResults c7Env)
        [("similarityMatrix", 1)]) [("similarityMatrix", 2)]) ∧
    (spreadMerge (spreadMerge (initialCombinedResults c7Env)
        [("similarityMatrix", 1)]) [("similarityMatrix", 2)]).lookup
      "similarityMatrix" = some 2 :=
  evaluator_merge_later_wins c7Env [] ["embedding", "llm-coverage"]
    "similarityMatrix" 1 2 [("similarityMatrix", 1)] [("similarityMatrix", 2)]
    (by decide) (by decide) rfl rfl rfl rfl

/-- Unfolding lemma: `aggregateAndSaveResults` is the build step followed by the guarded
save. -/
theorem aggregate_eq_build {V : Type} (env : Env V)
    (save : SaveFn (FinalComparisonOutputV2 V)) (config : ComparisonConfig)
    (runLabel : String) (allResponsesMap : List (String × PromptResponseData))
    (evaluationResults : List (String × V)) (evalMethodsUsed : List String)
    (commitSha blueprintFileName : Option String) :
    aggregateAndSaveResults env save config runLabel allResponsesMap
        evaluationResults evalMethodsUsed commitSha blueprintFileName =
      match buildFinalOutput env config runLabel allResponsesMap
          evaluationResults evalMethodsUsed commitSha blueprintFileName with
      | Except.error e => Except.error e
      | Except.ok finalOutput =>
          match save finalOutput.configId
              (runLabel ++ "_" ++ toSafeTimestamp env.now ++ "_comparison.json")
              finalOutput with
          | Except.ok _ =>
              Except.ok (finalOutput,
                some (runLabel ++ "_" ++ toSafeTimestamp env.now ++ "_comparison.json"))
          | Except.error _ => Except.ok (finalOutput, none) := rfl

/-- C2: if the storage gateway's save call throws, the pipeline still
returns the identical fully built in-memory Final Output Document that a
succeeding save would have produced, with a `none` file name, and raises
no error. -/
theorem pipeline_save_failure_returns_document {V : Type} (env : Env V)
    (save : SaveFn (FinalComparisonOutputV2 V)) (config : ComparisonConfig)
    (runLabel : String) (evalMethods : List String) (useCache : Bool)
    (existing : Option (List (String × PromptResponseData)))
    (commitSha blueprintFileName : Option String)
    (r : FinalComparisonOutputV2 V × Option String)
    (hfail : ∀ a b d, ∃ e, save a b d = Except.error e)
    (hok : executeComparisonPipeline env (fun _ _ _ => Except.ok ()) config runLabel
      evalMethods useCache existing commitSha blueprintFileName = Except.ok r) :
    executeComparisonPipeline env save config runLabel evalMethods useCache existing
      commitSha blueprintFileName = Except.ok (r.1, none) := by
  simp only [executeComparisonPipeline] at hok ⊢
  cases hloop : runEvaluatorLoop (chosenEvaluators env evalMethods)
      (evaluationInputsOf config
        (existing.getD (generateAllResponses env.provider config useCache)))
      (initialCombinedResults env) with
  | error e =>
      rw [hloop] at hok
      exact absurd hok (by simp)
  | ok combined =>
      rw [hloop] at hok
      replace hok : aggregateAndSaveResults env (fun _ _ _ => Except.ok ()) config
          runLabel (existing.getD (generateAllResponses env.provider config useCache))
          combined evalMethods commitSha blueprintFileName = Except.ok r := hok
      show aggregateAndSaveResults env save config runLabel
          (existing.getD (generateAllResponses env.provider config useCache))
          combined evalMethods commitSha blueprintFileName = Except.ok (r.1, none)
      rw [aggregate_eq_build] at hok ⊢
      cases hbuild : buildFinalOutput env config runLabel
          (existing.getD (generateAllResponses env.provider config useCache))
          combined evalMethods commitSha blueprintFileName with
      | error e =>
          rw [hbuild] at hok
          exact absurd hok (by simp)
      | ok finalOutput =>
          rw [hbuild] at hok
          replace hok : Except.ok (finalOutput,
              some (runLabel ++ "_" ++ toSafeTimestamp env.now ++ "_comparison.json")) =
            Except.ok r := hok
          obtain ⟨e, he⟩ := hfail finalOutput.configId
            (runLabel ++ "_" ++ toSafeTimestamp env.now ++ "_comparison.json") finalOutput
          show (match save finalOutput.configId
              (runLabel ++ "_" ++ toSafeTimestamp env.now ++ "_comparison.json")
              finalOutput with
            | Except.ok _ =>
                Except.ok (finalOutput,
                  some (runLabel ++ "_" ++ toSafeTimestamp env.now ++ "_comparison.json"))
            | Except.error _ => Except.ok (finalOutput, none)) = Except.ok (r.1, none)
          rw [he]
          have hr : r = (finalOutput,
              some (runLabel ++ "_" ++ toSafeTimestamp env.now ++ "_comparison.json")) :=
            (Except.ok.inj hok).symm
          rw [hr]

/-- A minimal blueprint on which the full pipeline runs to completion. -/
def c2Config : ComparisonConfig :=
  { id := some "c2", title := some "C2", description := none
    models := []
    prompts := []
    temperature := none, temperatures := none
    system := none, systems := none, concurrency := none }

/-- C2 witness: the theorem applied to a concrete run with an
always-throwing save. -/
theorem pipeline_save_failure_returns_document_witness :
    ∃ r, executeComparisonPipeline c7Env (fun _ _ _ => Except.ok ()) c2Config "run"
        [] false none none none = Except.ok r ∧
      executeComparisonPipeline c7Env (fun _ _ _ => Except.error "boom") c2Config
        "run" [] false none none none = Except.ok (r.1, none) := by
  have hsome : (executeComparisonPipeline c7Env (fun _ _ _ => Except.ok ()) c2Config
      "run" [] false none none none).isOk = true := by decide
  cases hok : executeComparisonPipeline c7Env (fun _ _ _ => Except.ok ()) c2Config
      "run" [] false none none none with
  | error e =>
      rw [hok] at hsome
      exact Bool.noConfusion hsome
  | ok r =>
      exact ⟨r, rfl, pipeline_save_failure_returns_document c7Env
        (fun _ _ _ => Except.error "boom") c2Config "run" [] false none none none r
        (fun a b d => ⟨"boom", rfl⟩) hok⟩

/-- C10: `normalizeTag` is idempotent. -/
theorem normalizeTag_idempotent (t : String) :
    normalizeTag (normalizeTag t) = normalizeTag t := by
  have hall := normalizeTag_allowed t
  by_cases hr : normalizeTag t = ""
  · rw [hr]
    rfl
  · rw [normalizeTag, if_neg hr]
    have hnws : ∀ c ∈ (normalizeTag t).data, isWsJs c = false :=
      fun c hc => allowed_not_ws (hall c hc)
    rw [trimJs_eq_self hnws, map_toLowerJs_eq_self hall, collapseWs_eq_self hnws,
      List.filter_eq_self.mpr hall]

/-! ## Counting the generated Response Records (C1) -/

/-- The per-prompt `toFixed(1)` renderings of the effective temperature
list, in enumeration order. -/
def renderedTemps (config : ComparisonConfig) (promptConfig : PromptConfig) :
    List String :=
  (temperaturesToRun config).map fun tv =>
    toFixed1 ((temperatureForThisCall config promptConfig tv).getD DEFAULT_TEMPERATURE)

/-- The key of the record a task stores is its Effective Model ID. -/
theorem runGenerationTask_fst (provider : Provider) (useCache : Bool)
    (config : ComparisonConfig) (promptConfig : PromptConfig)
    (promptMessages : List ConversationMessage) (modelString : String)
    (tempValue : Option ℚ) (systemPromptValue : Option String) (sp_idx : Nat) :
    (runGenerationTask provider useCache config promptConfig promptMessages
        modelString tempValue systemPromptValue sp_idx).1 =
      finalEffectiveId config modelString
        (temperatureForThisCall config promptConfig tempValue) sp_idx := by
  simp only [runGenerationTask]
  cases provider modelString
      (messagesForLlmOf promptMessages
        (resolveSystemPromptToUse config promptConfig systemPromptValue))
      ((temperatureForThisCall config promptConfig tempValue).getD DEFAULT_TEMPERATURE)
      useCache <;> rfl

theorem promptTaskRecords_keys (provider : Provider) (useCache : Bool)
    (config : ComparisonConfig) (promptConfig : PromptConfig)
    (promptMessages : List ConversationMessage) :
    keysOf (promptTaskRecords provider useCache config promptConfig promptMessages) =
      (taskInputs config).map fun mts =>
        finalEffectiveId config mts.1
          (temperatureForThisCall config promptConfig mts.2.1) mts.2.2.1 := by
  rw [promptTaskRecords, keysOf, List.map_map]
  exact List.map_congr_left fun mts _ =>
    runGenerationTask_fst provider useCache config promptConfig promptMessages
      mts.1 mts.2.1 mts.2.2.2 mts.2.2.1

/-- The rendered shape of a generated Effective Model ID. -/
theorem finalEffectiveId_shape (config : ComparisonConfig)
    (promptConfig : PromptConfig) (m : String) (tv : Option ℚ) (i : Nat) :
    finalEffectiveId config m (temperatureForThisCall config promptConfig tv) i =
      (if 1 < (config.systems.getD []).length then
        m ++ "[temp:" ++
            toFixed1 ((temperatureForThisCall config promptConfig tv).getD
              DEFAULT_TEMPERATURE) ++ "]" ++ "[sp_idx:" ++ natStr i ++ "]"
      else
        m ++ "[temp:" ++
            toFixed1 ((temperatureForThisCall config promptConfig tv).getD
              DEFAULT_TEMPERATURE) ++ "]") := by
  obtain ⟨t, ht⟩ := temperatureForThisCall_isSome config promptConfig tv
  rw [ht]
  rfl

/-- When the run does not permute several system prompts, there is only
one system-prompt variant. -/
theorem systemPromptsToRun_length_one (config : ComparisonConfig)
    (h : ¬ 1 < (config.systems.getD []).length) :
    (systemPromptsToRun config).length = 1 := by
  rw [systemPromptsToRun]
  cases hs : config.systems with
  | none => rfl
  | some l =>
      rw [hs] at h
      simp only [Option.getD_some] at h
      show (if l.length > 0 then l else [config.system]).length = 1
      by_cases hl : l.length > 0
      · rw [if_pos hl]
        omega
      · rw [if_neg hl]
        rfl

/-- Distinct models and per-prompt distinct temperature renderings make
all task keys of one prompt distinct. -/
theorem taskKeys_nodup (provider : Provider) (useCache : Bool)
    (config : ComparisonConfig) (promptConfig : PromptConfig)
    (promptMessages : List ConversationMessage)
    (hm : config.models.Nodup)
    (ht : (renderedTemps config promptConfig).Nodup) :
    (keysOf (promptTaskRecords provider useCache config promptConfig
      promptMessages)).Nodup := by
  rw [promptTaskRecords_keys]
  have htempsNodup : (temperaturesToRun config).Nodup := ht.of_map _
  have henum : ((systemPromptsToRun config).enum).Nodup := by
    apply List.Nodup.of_map Prod.fst
    rw [List.enum_map_fst]
    exact List.nodup_range _
  apply List.Nodup.map_on ?_ (hm.product (htempsNodup.product henum))
  intro x hx y hy hxy
  obtain ⟨mx, tvx, ix, svx⟩ := x
  obtain ⟨my, tvy, iy, svy⟩ := y
  rw [List.mem_product] at hx hy
  obtain ⟨hmx, hx2⟩ := hx
  obtain ⟨hmy, hy2⟩ := hy
  rw [List.mem_product] at hx2 hy2
  obtain ⟨htvx, hsvx⟩ := hx2
  obtain ⟨htvy, hsvy⟩ := hy2
  simp only at hxy
  rw [finalEffectiveId_shape, finalEffectiveId_shape] at hxy
  have hrender : toFixed1 ((temperatureForThisCall config promptConfig tvx).getD
        DEFAULT_TEMPERATURE) =
      toFixed1 ((temperatureForThisCall config promptConfig tvy).getD
        DEFAULT_TEMPERATURE) →
      tvx = tvy := by
    intro hr
    exact List.inj_on_of_nodup_map ht htvx htvy hr
  by_cases hperm : 1 < (config.systems.getD []).length
  · rw [if_pos hperm, if_pos hperm] at hxy
    obtain ⟨ha, hi⟩ := spTag_inj hxy
    obtain ⟨hmm, hss⟩ := tempTag_inj (toFixed1_no_lbracket _) (toFixed1_no_lbracket _) ha
    have htv : tvx = tvy := hrender hss
    subst hmm htv hi
    have hx1 := List.mem_enum hsvx
    have hy1 := List.mem_enum hsvy
    rw [hx1.2, hy1.2]
  · rw [if_neg hperm, if_neg hperm] at hxy
    obtain ⟨hmm, hss⟩ := tempTag_inj (toFixed1_no_lbracket _) (toFixed1_no_lbracket _) hxy
    have htv : tvx = tvy := hrender hss
    have hlen1 := systemPromptsToRun_length_one config hperm
    have hix := (List.mem_enum hsvx).1
    have hiy := (List.mem_enum hsvy).1
    have hii : ix = iy := by omega
    subst hmm htv hii
    have hx1 := List.mem_enum hsvx
    have hy1 := List.mem_enum hsvy
    rw [hx1.2, hy1.2]

/-- The size of one fully populated container. -/
theorem generateForPrompt_size (provider : Provider) (useCache : Bool)
    (config : ComparisonConfig) (promptConfig : PromptConfig)
    (promptMessages : List ConversationMessage)
    (hm : config.models.Nodup)
    (ht : (renderedTemps config promptConfig).Nodup) :
    (generateForPrompt provider useCache config promptConfig
        promptMessages).modelResponses.length =
      config.models.length *
        ((temperaturesToRun config).length * (systemPromptsToRun config).length) := by
  show (mapSetAll [] (promptTaskRecords provider useCache config promptConfig
      promptMessages)).length = _
  rw [length_mapSetAll _ _
    (taskKeys_nodup provider useCache config promptConfig promptMessages hm ht)
    (by intro x _ hx; simp [keysOf] at hx)]
  rw [promptTaskRecords, List.length_map, taskInputs, List.length_product,
    List.length_product, List.enum_length]
  simp only [List.length_nil]
  omega

/-- Inserting a fresh key appends. -/
theorem mapSet_append_of_not_mem {α : Type} (m : List (String × α)) (k : String)
    (v : α) (h : k ∉ keysOf m) : mapSet m k v = m ++ [(k, v)] := by
  induction m with
  | nil => rfl
  | cons hd tl ih =>
      obtain ⟨k0, v0⟩ := hd
      simp only [keysOf, List.map_cons, List.mem_cons] at h
      push_neg at h
      have hne : ¬ k0 = k := fun hk => h.1 hk.symm
      show (if k0 = k then (k, v) :: tl else (k0, v0) :: mapSet tl k v) = _
      rw [if_neg hne, ih h.2]
      rfl

/-- With distinct prompt ids and defined message lists,
`generateAllResponses` is just the list of per-prompt containers. -/
theorem generateAllResponses_eq_map (provider : Provider)
    (config : ComparisonConfig) (useCache : Bool)
    (hids : (config.prompts.map PromptConfig.id).Nodup)
    (hmsg : ∀ p ∈ config.prompts, p.messages.isSome) :
    generateAllResponses provider config useCache =
      config.prompts.map fun p =>
        (p.id, generateForPrompt provider useCache config p (p.messages.getD [])) := by
  rw [generateAllResponses]
  suffices hgen : ∀ (l : List PromptConfig) (acc : List (String × PromptResponseData)),
      (l.map PromptConfig.id).Nodup →
      (∀ p ∈ l, p.messages.isSome) →
      (∀ p ∈ l, p.id ∉ keysOf acc) →
      l.foldl (fun acc promptConfig =>
        match promptConfig.messages with
        | none => acc
        | some promptMessages =>
            mapSet acc promptConfig.id
              (generateForPrompt provider useCache config promptConfig promptMessages))
        acc =
      acc ++ l.map fun p =>
        (p.id, generateForPrompt provider useCache config p (p.messages.getD [])) by
    simpa using hgen config.prompts [] hids hmsg (by intro p _ hp; simp [keysOf] at hp)
  intro l
  induction l with
  | nil => intro acc _ _ _; simp
  | cons p tl ih =>
      intro acc hids hmsg hdisj
      obtain ⟨msgs, hmsgs⟩ := Option.isSome_iff_exists.mp (hmsg p (by simp))
      simp only [List.map_cons, List.nodup_cons] at hids
      have hstep : (match p.messages with
          | none => acc
          | some promptMessages =>
              mapSet acc p.id
                (generateForPrompt provider useCache config p promptMessages)) =
          acc ++ [(p.id, generateForPrompt provider useCache config p
            (p.messages.getD []))] := by
        rw [hmsgs]
        show mapSet acc p.id (generateForPrompt provider useCache config p msgs) =
          acc ++ [(p.id, generateForPrompt provider useCache config p
            ((some msgs).getD []))]
        rw [mapSet_append_of_not_mem _ _ _ (hdisj p (by simp))]
        rfl
      rw [List.foldl_cons, hstep, ih (acc ++ [(p.id, generateForPrompt provider
        useCache config p (p.messages.getD []))]) hids.2
        (fun q hq => hmsg q (by simp [hq]))
        (fun q hq => by
          simp only [keysOf, List.map_append, List.mem_append]
          push_neg
          refine ⟨fun hmem => hdisj q (by simp [hq]) hmem, ?_⟩
          simp only [List.map_cons, List.map_nil, List.mem_singleton]
          intro hqp
          exact hids.1 (hqp ▸ (List.mem_map_of_mem PromptConfig.id hq))),
        List.map_cons, List.append_assoc]
      rfl

/-- Sum of a constant-valued map. -/
theorem sum_map_const {α : Type} (l : List α) (f : α → Nat) (c : Nat)
    (h : ∀ x ∈ l, f x = c) : (l.map f).sum = l.length * c := by
  induction l with
  | nil => simp
  | cons hd tl ih =>
      rw [List.map_cons, List.sum_cons, h hd (by simp),
        ih (fun x hx => h x (by simp [hx]))]
      rw [List.length_cons]
      ring

/-- C1 counterexample input: one prompt, one model, the two distinct
temperatures 0.5 and 0.54 (which render identically under `toFixed(1)`),
one system-prompt variant. -/
def c1Prompt : PromptConfig :=
  { id := "p1", promptText := none
    messages := some [⟨"user", "hi"⟩]
    idealResponse := none, system := none, temperature := none }

def c1Config : ComparisonConfig :=
  { id := some "c1", title := some "C1", description := none
    models := ["m"]
    prompts := [c1Prompt]
    temperature := none, temperatures := some [mkRat 1 2, mkRat 27 50]
    system := none, systems := none, concurrency := none }

/-- C1 counterexample: a configuration with `P*M*Te*S = 2` whose two
distinct temperatures render to the same `[temp:0.5]` tag, so the two
tasks collide on one Effective Model ID and only one Response Record
survives — the claimed count fails. -/
theorem generateAllResponses_count_collision :
    (mkRat 1 2 ≠ mkRat 27 50) ∧
    c1Config.prompts.length * (c1Config.models.length *
      ((temperaturesToRun c1Config).length * (systemPromptsToRun c1Config).length)) = 2 ∧
    totalRecords (generateAllResponses (fun _ _ _ _ => Except.ok "") c1Config false) = 1 := by
  refine ⟨by decide, by decide, by decide⟩

/-- C1 as amended: provided the prompt ids are distinct, every prompt has
a defined message list, the models are pairwise distinct and, for each
prompt, the `toFixed(1)` renderings of the effective temperatures are
pairwise distinct, `generateAllResponses` produces exactly `P*M*Te*S`
Response Records; and (unconditionally) within each prompt's container
every record sits under a distinct Effective Model ID. -/
theorem generateAllResponses_count (provider : Provider)
    (config : ComparisonConfig) (useCache : Bool)
    (hids : (config.prompts.map PromptConfig.id).Nodup)
    (hmsg : ∀ p ∈ config.prompts, p.messages.isSome)
    (hm : config.models.Nodup)
    (ht : ∀ p ∈ config.prompts, (renderedTemps config p).Nodup) :
    totalRecords (generateAllResponses provider config useCache) =
      config.prompts.length * (config.models.length *
        ((temperaturesToRun config).length * (systemPromptsToRun config).length)) ∧
    ∀ pr ∈ generateAllResponses provider config useCache,
      (keysOf pr.2.modelResponses).Nodup := by
  rw [generateAllResponses_eq_map provider config useCache hids hmsg]
  constructor
  · rw [totalRecords, List.map_map]
    exact sum_map_const _ _ _ fun p hp =>
      generateForPrompt_size provider useCache config p (p.messages.getD []) hm (ht p hp)
  · intro pr hpr
    obtain ⟨p, _, hpr⟩ := List.mem_map.mp hpr
    rw [← hpr]
    exact keysOf_mapSetAll_nodup _ [] (by simp [keysOf])

/-- C1 witness input: two models, two distinguishable temperatures and
two system-prompt variants. -/
def c1wConfig : ComparisonConfig :=
  { id := some "c1w", title := some "C1w", description := none
    models := ["m1", "m2"]
    prompts := [c1Prompt]
    temperature := none, temperatures := some [mkRat 1 2, mkRat 7 10]
    system := none, systems := some [some "s1", some "s2"], concurrency := none }

/-- C1 witness: the amended theorem applied to a concrete configuration
with `P*M*Te*S = 8`. -/
theorem generateAllResponses_count_witness :
    totalRecords (generateAllResponses (fun _ _ _ _ => Except.ok "") c1wConfig false) =
      c1wConfig.prompts.length * (c1wConfig.models.length *
        ((temperaturesToRun c1wConfig).length * (systemPromptsToRun c1wConfig).length)) ∧
    ∀ pr ∈ generateAllResponses (fun _ _ _ _ => Except.ok "") c1wConfig false,
      (keysOf pr.2.modelResponses).Nodup :=
  generateAllResponses_count (fun _ _ _ _ => Except.ok "") c1wConfig false
    (by decide) (by decide) (by decide) (by decide)

/-! ## Laws of the effective-model-id parser (C3) -/

theorem takeToBracket_append (l p : List Char)
    (h : ∀ c ∈ l, c ≠ '[' ∧ c ≠ ']') :
    takeToBracket (l ++ '[' :: p) = some (l, p) := by
  induction l with
  | nil => simp [takeToBracket]
  | cons c rest ih =>
      have hc := h c (by simp)
      rw [List.cons_append, takeToBracket, if_neg hc.1, if_neg hc.2,
        ih (fun d hd => h d (by simp [hd]))]
      rfl

theorem digit_no_brackets {d : Char} (hd : d.isDigit = true) :
    d ≠ '[' ∧ d ≠ ']' := by
  constructor
  · intro hb
    rw [hb] at hd
    exact absurd hd (by decide)
  · intro hb
    rw [hb] at hd
    exact absurd hd (by decide)

/-- Digit-and-dot strings contain no brackets. -/
theorem isNumString_no_brackets {l : List Char} (h : isNumString l = true) :
    ∀ c ∈ l, c ≠ '[' ∧ c ≠ ']' := by
  intro c hc
  rw [isNumString, List.span_eq_take_drop] at h
  simp only at h
  rw [← List.takeWhile_append_dropWhile (fun c => c.isDigit) l] at hc
  rcases List.mem_append.mp hc with htk | hdr
  · exact digit_no_brackets (List.mem_takeWhile_imp htk)
  · split at h
    case _ heq =>
        rw [heq] at hdr
        simp at hdr
    case _ rest heq =>
        rw [heq] at hdr
        rcases List.mem_cons.mp hdr with rfl | hrest
        · exact ⟨by decide, by decide⟩
        · have hand : ¬ l.takeWhile (fun c => c.isDigit) = [] ∧ ¬ rest = [] ∧
              rest.all (fun c => c.isDigit) = true := by simpa using h
          exact digit_no_brackets (List.all_eq_true.mp hand.2.2 c hrest)
    case _ =>
        exact absurd h (by simp)

theorem stripLastTagRev_sysTag (m hsh : String) (hh : ¬ hsh.data = [])
    (hnb : ∀ c ∈ hsh.data, c ≠ '[' ∧ c ≠ ']') :
    stripLastTagRev ((m ++ "[sys:" ++ hsh ++ "]").data.reverse) =
      some (m.data.reverse, TagKind.sys, hsh.data) := by
  have hdata : (m ++ "[sys:" ++ hsh ++ "]").data =
      m.data ++ '[' :: (['s', 'y', 's', ':'] ++ (hsh.data ++ [']'])) := by
    show m.data ++ ['[', 's', 'y', 's', ':'] ++ hsh.data ++ [']'] = _
    simp
  have hrev : (m.data ++ '[' :: (['s', 'y', 's', ':'] ++ (hsh.data ++ [']']))).reverse =
      ']' :: ((hsh.data.reverse ++ [':', 's', 'y', 's']) ++ '[' :: m.data.reverse) := by
    simp
  rw [hdata, hrev, stripLastTagRev, if_pos rfl,
    takeToBracket_append _ _ (by
      intro c hcm
      rcases List.mem_append.mp hcm with hcm | hcm
      · exact hnb c (List.mem_reverse.mp hcm)
      · exact (by decide :
          ∀ x ∈ ([':', 's', 'y', 's'] : List Char), x ≠ '[' ∧ x ≠ ']') c hcm)]
  have hLrev : (hsh.data.reverse ++ [':', 's', 'y', 's']).reverse =
      's' :: 'y' :: 's' :: ':' :: hsh.data := by
    simp
  show (match matchTagContent ((hsh.data.reverse ++ [':', 's', 'y', 's']).reverse) with
      | some (k, payload) => some (m.data.reverse, k, payload)
      | none => none) = some (m.data.reverse, TagKind.sys, hsh.data)
  rw [hLrev]
  have hmc : matchTagContent ('s' :: 'y' :: 's' :: ':' :: hsh.data) =
      some (TagKind.sys, hsh.data) := by
    rw [matchTagContent, if_pos ⟨rfl, hh⟩]
    rfl
  rw [hmc]

theorem stripLastTagRev_tempTag (m num : String) (hn : isNumString num.data = true) :
    stripLastTagRev ((m ++ "[temp:" ++ num ++ "]").data.reverse) =
      some (m.data.reverse, TagKind.temp, num.data) := by
  have hdata : (m ++ "[temp:" ++ num ++ "]").data =
      m.data ++ '[' :: (['t', 'e', 'm', 'p', ':'] ++ (num.data ++ [']'])) := by
    show m.data ++ ['[', 't', 'e', 'm', 'p', ':'] ++ num.data ++ [']'] = _
    simp
  have hrev : (m.data ++ '[' :: (['t', 'e', 'm', 'p', ':'] ++ (num.data ++ [']']))).reverse =
      ']' :: ((num.data.reverse ++ [':', 'p', 'm', 'e', 't']) ++ '[' :: m.data.reverse) := by
    simp
  rw [hdata, hrev, stripLastTagRev, if_pos rfl,
    takeToBracket_append _ _ (by
      intro c hcm
      rcases List.mem_append.mp hcm with hcm | hcm
      · exact isNumString_no_brackets hn c (List.mem_reverse.mp hcm)
      · exact (by decide :
          ∀ x ∈ ([':', 'p', 'm', 'e', 't'] : List Char), x ≠ '[' ∧ x ≠ ']') c hcm)]
  have hLrev : (num.data.reverse ++ [':', 'p', 'm', 'e', 't']).reverse =
      't' :: 'e' :: 'm' :: 'p' :: ':' :: num.data := by
    simp
  show (match matchTagContent ((num.data.reverse ++ [':', 'p', 'm', 'e', 't']).reverse) with
      | some (k, payload) => some (m.data.reverse, k, payload)
      | none => none) = some (m.data.reverse, TagKind.temp, num.data)
  rw [hLrev]
  have hmc : matchTagContent ('t' :: 'e' :: 'm' :: 'p' :: ':' :: num.data) =
      some (TagKind.temp, num.data) := by
    have ht4 : List.take 4 ('t' :: 'e' :: 'm' :: 'p' :: ':' :: num.data) =
        ['t', 'e', 'm', 'p'] := rfl
    rw [matchTagContent, if_neg (by
      intro hcontra
      have h1 := hcontra.1
      rw [ht4] at h1
      exact absurd h1 (by decide)), if_pos ⟨rfl, hn⟩]
    rfl
  rw [hmc]

/-- The legacy ideal alias maps to the ideal-model base id regardless of
suffixes: the alias check applies to the stripped base id. -/
theorem parseEffectiveModelId_alias :
    parseEffectiveModelId "IDEAL_BENCHMARK" =
      { baseId := IDEAL_MODEL_ID, systemPromptHash := none, temperature := none } ∧
    parseEffectiveModelId "IDEAL_BENCHMARK[sys:abc][temp:0.5]" =
      { baseId := IDEAL_MODEL_ID, systemPromptHash := some "abc",
        temperature := some "0.5" } := by
  refine ⟨by decide, by decide⟩

/-- C3 counterexample: with the base string `x[temp:0.3]` (itself ending
in a tag), the hash `abc` and the number `0.5`, parsing
`base[sys:abc][temp:0.5]` strips the base's own trailing tag too,
yielding base id `x` and temperature `0.3` — not the claimed triple. -/
theorem parse_tag_order_claim_false :
    parseEffectiveModelId
        ("x[temp:0.3]" ++ "[sys:" ++ "abc" ++ "]" ++ "[temp:" ++ "0.5" ++ "]") =
      { baseId := "x", systemPromptHash := some "abc", temperature := some "0.3" } ∧
    ¬ (parseEffectiveModelId
        ("x[temp:0.3]" ++ "[sys:" ++ "abc" ++ "]" ++ "[temp:" ++ "0.5" ++ "]") =
      { baseId := "x[temp:0.3]", systemPromptHash := some "abc",
        temperature := some "0.5" }) := by
  refine ⟨by decide, by decide⟩

/-- C3 as amended: for every base string that does not itself end in a
`[sys:...]`/`[temp:...]` tag and is not the reserved legacy alias
`IDEAL_BENCHMARK` (which parses to the ideal-model base id instead),
every non-empty bracket-free hash `H` and every number string `T`,
parsing `base[sys:H][temp:T]` and `base[temp:T][sys:H]` yields the same
triple `{baseId = base, systemPromptHash = H, temperature = T}` — tag
extraction is independent of the order of the two trailing tags. -/
theorem parse_tag_order_independent (base H T : String)
    (hbase : stripLastTagRev base.data.reverse = none)
    (hbi : ¬ base = "IDEAL_BENCHMARK")
    (hH1 : ¬ H.data = [])
    (hH2 : ∀ c ∈ H.data, c ≠ '[' ∧ c ≠ ']')
    (hT : isNumString T.data = true) :
    parseEffectiveModelId (base ++ "[sys:" ++ H ++ "]" ++ "[temp:" ++ T ++ "]") =
      { baseId := base, systemPromptHash := some H, temperature := some T } ∧
    parseEffectiveModelId (base ++ "[temp:" ++ T ++ "]" ++ "[sys:" ++ H ++ "]") =
      { baseId := base, systemPromptHash := some H, temperature := some T } := by
  have hs2 := stripLastTagRev_sysTag base H hH1 hH2
  have ht2 := stripLastTagRev_tempTag base T hT
  have hbi2 : ¬ (⟨base.data⟩ : String) = "IDEAL_BENCHMARK" := hbi
  constructor
  · have hs1 := stripLastTagRev_tempTag (base ++ "[sys:" ++ H ++ "]") T hT
    obtain ⟨f, hf⟩ : ∃ f,
        (base ++ "[sys:" ++ H ++ "]" ++ "[temp:" ++ T ++ "]").data.length = f + 1 := by
      refine ⟨(base ++ "[sys:" ++ H ++ "]" ++ "[temp:" ++ T).data.length, ?_⟩
      rw [String.data_append, List.length_append]
      rfl
    have hloop : parseLoopGo
        ((base ++ "[sys:" ++ H ++ "]" ++ "[temp:" ++ T ++ "]").data.length + 1)
        (base ++ "[sys:" ++ H ++ "]" ++ "[temp:" ++ T ++ "]").data.reverse
        none none = (base.data.reverse, some H.data, some T.data) := by
      rw [hf, parseLoopGo_strip_temp (f + 1) none none hs1,
        parseLoopGo_strip_sys f none (some T.data) hs2,
        parseLoopGo_none f (some H.data) (some T.data) hbase]
    rw [parseEffectiveModelId, hloop]
    simp [List.reverse_reverse, hbi2]
  · have hs1 := stripLastTagRev_sysTag (base ++ "[temp:" ++ T ++ "]") H hH1 hH2
    obtain ⟨f, hf⟩ : ∃ f,
        (base ++ "[temp:" ++ T ++ "]" ++ "[sys:" ++ H ++ "]").data.length = f + 1 := by
      refine ⟨(base ++ "[temp:" ++ T ++ "]" ++ "[sys:" ++ H).data.length, ?_⟩
      rw [String.data_append, List.length_append]
      rfl
    have hloop : parseLoopGo
        ((base ++ "[temp:" ++ T ++ "]" ++ "[sys:" ++ H ++ "]").data.length + 1)
        (base ++ "[temp:" ++ T ++ "]" ++ "[sys:" ++ H ++ "]").data.reverse
        none none = (base.data.reverse, some H.data, some T.data) := by
      rw [hf, parseLoopGo_strip_sys (f + 1) none none hs1,
        parseLoopGo_strip_temp f (some H.data) none ht2,
        parseLoopGo_none f (some H.data) (some T.data) hbase]
    rw [parseEffectiveModelId, hloop]
    simp [List.reverse_reverse, hbi2]

/-- C3 witness: the amended theorem applied to the unit test's model id,
hash and temperature. -/
theorem parse_tag_order_independent_witness :
    parseEffectiveModelId
        ("openrouter:test-model" ++ "[sys:" ++ "1a2b3c" ++ "]" ++ "[temp:" ++ "0.5" ++ "]") =
      { baseId := "openrouter:test-model", systemPromptHash := some "1a2b3c",
        temperature := some "0.5" } ∧
    parseEffectiveModelId
        ("openrouter:test-model" ++ "[temp:" ++ "0.5" ++ "]" ++ "[sys:" ++ "1a2b3c" ++ "]") =
      { baseId := "openrouter:test-model", systemPromptHash := some "1a2b3c",
        temperature := some "0.5" } :=
  parse_tag_order_independent "openrouter:test-model" "1a2b3c" "0.5"
    (by decide) (by decide) (by decide) (by decide) (by decide)

/-! ## The effective-model set of the Final Output Document (C8) -/

theorem mem_setInsert (s : List String) (x y : String) :
    y ∈ setInsert s x ↔ y ∈ s ∨ y = x := by
  rw [setInsert]
  split <;> rename_i hmem
  · constructor
    · exact Or.inl
    · rintro (h | rfl)
      · exact h
      · exact hmem
  · simp

/-- The inner aggregation loop only inserts the container's keys into the
effective-model set. -/
theorem effSet_aggStepModel_fold (promptId : String)
    (entries : List (String × ModelResponseData)) (a : AggAcc) :
    (entries.foldl (aggStepModel promptId) a).effectiveModelsSet =
      entries.foldl (fun s e => setInsert s e.1) a.effectiveModelsSet := by
  induction entries generalizing a with
  | nil => rfl
  | cons e tl ih =>
      rw [List.foldl_cons, List.foldl_cons, ih]
      rfl

/-- The outer aggregation loop inserts exactly the keys of every
container. -/
theorem effSet_aggStepPrompt_fold (storeFullHistory : Bool)
    (l : List (String × PromptResponseData)) (a : AggAcc) :
    (l.foldl (aggStepPrompt storeFullHistory) a).effectiveModelsSet =
      l.foldl (fun s pr =>
        pr.2.modelResponses.foldl (fun s e => setInsert s e.1) s)
        a.effectiveModelsSet := by
  induction l generalizing a with
  | nil => rfl
  | cons pr tl ih =>
      rw [List.foldl_cons, List.foldl_cons, ih, aggStepPrompt,
        effSet_aggStepModel_fold]

theorem mem_setInsert_fold (entries : List (String × ModelResponseData))
    (s0 : List String) (x : String) :
    x ∈ entries.foldl (fun s e => setInsert s e.1) s0 ↔
      x ∈ s0 ∨ x ∈ keysOf entries := by
  induction entries generalizing s0 with
  | nil => simp [keysOf]
  | cons e tl ih =>
      rw [List.foldl_cons, ih, mem_setInsert]
      simp only [keysOf, List.map_cons, List.mem_cons]
      tauto

theorem mem_effSet_fold (l : List (String × PromptResponseData))
    (s0 : List String) (x : String) :
    x ∈ l.foldl (fun s pr =>
        pr.2.modelResponses.foldl (fun s e => setInsert s e.1) s) s0 ↔
      x ∈ s0 ∨ ∃ pr ∈ l, x ∈ keysOf pr.2.modelResponses := by
  induction l generalizing s0 with
  | nil => simp
  | cons pr tl ih =>
      rw [List.foldl_cons, ih, mem_setInsert_fold]
      constructor
      · rintro ((h | h) | ⟨q, hq, hx⟩)
        · exact Or.inl h
        · exact Or.inr ⟨pr, by simp, h⟩
        · exact Or.inr ⟨q, by simp [hq], hx⟩
      · rintro (h | ⟨q, hq, hx⟩)
        · exact Or.inl (Or.inl h)
        · rcases List.mem_cons.mp hq with rfl | hq2
          · exact Or.inl (Or.inr hx)
          · exact Or.inr ⟨q, hq2, hx⟩

theorem mem_mapSet_elim {α : Type} {m : List (String × α)} {k : String} {v : α}
    {x : String × α} (h : x ∈ mapSet m k v) : x ∈ m ∨ x = (k, v) := by
  induction m with
  | nil => simpa [mapSet] using h
  | cons hd tl ih =>
      obtain ⟨k0, v0⟩ := hd
      by_cases hk : k0 = k
      · subst hk
        rw [show mapSet ((k0, v0) :: tl) k0 v = (k0, v) :: tl from by
          simp [mapSet]] at h
        rcases List.mem_cons.mp h with rfl | h2
        · exact Or.inr rfl
        · exact Or.inl (by simp [h2])
      · rw [show mapSet ((k0, v0) :: tl) k v = (k0, v0) :: mapSet tl k v from by
          simp [mapSet, hk]] at h
        rcases List.mem_cons.mp h with rfl | h2
        · exact Or.inl (by simp)
        · rcases ih h2 with h3 | h3
          · exact Or.inl (by simp [h3])
          · exact Or.inr h3

/-- Every container in the generated map is a per-prompt container of
some prompt with a defined message list. -/
theorem mem_generateAllResponses (provider : Provider) (config : ComparisonConfig)
    (useCache : Bool) (pr : String × PromptResponseData)
    (h : pr ∈ generateAllResponses provider config useCache) :
    ∃ p ∈ config.prompts, ∃ msgs, p.messages = some msgs ∧
      pr = (p.id, generateForPrompt provider useCache config p msgs) := by
  rw [generateAllResponses] at h
  suffices hgen : ∀ (l : List PromptConfig) (acc : List (String × PromptResponseData)),
      pr ∈ l.foldl (fun acc promptConfig =>
        match promptConfig.messages with
        | none => acc
        | some promptMessages =>
            mapSet acc promptConfig.id
              (generateForPrompt provider useCache config promptConfig promptMessages))
        acc →
      pr ∈ acc ∨ ∃ p ∈ l, ∃ msgs, p.messages = some msgs ∧
        pr = (p.id, generateForPrompt provider useCache config p msgs) by
    rcases hgen config.prompts [] h with h2 | h2
    · simp at h2
    · exact h2
  intro l
  induction l with
  | nil => intro acc h2; exact Or.inl h2
  | cons p tl ih =>
      intro acc h2
      rw [List.foldl_cons] at h2
      rcases ih _ h2 with h3 | ⟨q, hq, msgs, hmsgs, hpr⟩
      · cases hpm : p.messages with
        | none =>
            rw [hpm] at h3
            exact Or.inl h3
        | some msgs =>
            rw [hpm] at h3
            rcases mem_mapSet_elim h3 with h4 | h4
            · exact Or.inl h4
            · exact Or.inr ⟨p, by simp, msgs, hpm, h4⟩
      · exact Or.inr ⟨q, by simp [hq], msgs, hmsgs, hpr⟩

/-- Every key of a generated container ends in `]`. -/
theorem generated_key_endBr (provider : Provider) (config : ComparisonConfig)
    (useCache : Bool) (promptConfig : PromptConfig)
    (msgs : List ConversationMessage) (k : String)
    (hk : k ∈ keysOf (generateForPrompt provider useCache config promptConfig
      msgs).modelResponses) :
    k.data.getLast? = some ']' := by
  have hk2 : k ∈ keysOf (promptTaskRecords provider useCache config promptConfig msgs) := by
    have := (mem_keysOf_mapSetAll
      (promptTaskRecords provider useCache config promptConfig msgs) [] k).mp hk
    simpa [keysOf] using this
  rw [promptTaskRecords_keys] at hk2
  obtain ⟨mts, _, hid⟩ := List.mem_map.mp hk2
  rw [← hid, finalEffectiveId_shape]
  split
  · rw [String.data_append, List.getLast?_concat]
  · rw [String.data_append, List.getLast?_concat]

/-- The `effectiveModels` list of a successfully built document. -/
theorem buildFinalOutput_effectiveModels {V : Type} (env : Env V)
    (config : ComparisonConfig) (runLabel : String)
    (allResponsesMap : List (String × PromptResponseData))
    (evaluationResults : List (String × V)) (evalMethodsUsed : List String)
    (commitSha blueprintFileName : Option String) (doc : FinalComparisonOutputV2 V)
    (hb : buildFinalOutput env config runLabel allResponsesMap evaluationResults
      evalMethodsUsed commitSha blueprintFileName = Except.ok doc) :
    doc.effectiveModels =
      (if config.prompts.any (fun p =>
          match p.idealResponse with
          | some s => s ≠ ""
          | none => false) then
        setInsert ((allResponsesMap.foldl (aggStepPrompt env.storeFullHistory)
          { promptIds := [], promptContexts := [], allFinalAssistantResponses := []
            fullConversationHistories := [], errors := [], effectiveModelsSet := []
            modelSystemPrompts := [] }).effectiveModelsSet) IDEAL_MODEL_ID
      else
        (allResponsesMap.foldl (aggStepPrompt env.storeFullHistory)
          { promptIds := [], promptContexts := [], allFinalAssistantResponses := []
            fullConversationHistories := [], errors := [], effectiveModelsSet := []
            modelSystemPrompts := [] }).effectiveModelsSet).insertionSort (· ≤ ·) := by
  rw [buildFinalOutput] at hb
  split at hb
  · exact absurd hb (by simp)
  · split at hb
    · exact absurd hb (by simp)
    · have hd := Except.ok.inj hb
      rw [← hd]

theorem hasAnyIdeal_iff (config : ComparisonConfig) :
    (config.prompts.any fun p =>
      match p.idealResponse with
      | some s => s ≠ ""
      | none => false) = true ↔
    ∃ p ∈ config.prompts, p.idealResponse.getD "" ≠ "" := by
  rw [List.any_eq_true]
  constructor
  · rintro ⟨p, hp, hb⟩
    refine ⟨p, hp, ?_⟩
    cases hir : p.idealResponse with
    | none =>
        rw [hir] at hb
        exact Bool.noConfusion hb
    | some s =>
        rw [hir] at hb
        simpa using hb
  · rintro ⟨p, hp, hgd⟩
    refine ⟨p, hp, ?_⟩
    cases hir : p.idealResponse with
    | none =>
        rw [hir] at hgd
        simp at hgd
    | some s =>
        rw [hir] at hgd
        simpa using hgd

/-- C8: for every run of the pipeline (generation path), the
`effectiveModels` list of the returned Final Output Document contains the
reserved ideal-model id exactly when some prompt of the configuration
supplied a non-empty ideal response; it is sorted; and when no ideal
response exists it contains only Effective Model IDs observed in the
generated containers. -/
theorem effectiveModels_ideal_iff_sorted {V : Type} (env : Env V)
    (save : SaveFn (FinalComparisonOutputV2 V)) (config : ComparisonConfig)
    (runLabel : String) (evalMethods : List String) (useCache : Bool)
    (commitSha blueprintFileName : Option String)
    (doc : FinalComparisonOutputV2 V) (fn : Option String)
    (hok : executeComparisonPipeline env save config runLabel evalMethods useCache
      none commitSha blueprintFileName = Except.ok (doc, fn)) :
    (IDEAL_MODEL_ID ∈ doc.effectiveModels ↔
      ∃ p ∈ config.prompts, p.idealResponse.getD "" ≠ "") ∧
    doc.effectiveModels.Sorted (· ≤ ·) ∧
    ((¬ ∃ p ∈ config.prompts, p.idealResponse.getD "" ≠ "") →
      ∀ m ∈ doc.effectiveModels,
        ∃ pr ∈ generateAllResponses env.provider config useCache,
          m ∈ keysOf pr.2.modelResponses) := by
  simp only [executeComparisonPipeline, Option.getD_none] at hok
  cases hloop : runEvaluatorLoop (chosenEvaluators env evalMethods)
      (evaluationInputsOf config (generateAllResponses env.provider config useCache))
      (initialCombinedResults env) with
  | error e =>
      rw [hloop] at hok
      exact absurd hok (by simp)
  | ok combined =>
      rw [hloop] at hok
      replace hok : aggregateAndSaveResults env save config runLabel
          (generateAllResponses env.provider config useCache) combined evalMethods
          commitSha blueprintFileName = Except.ok (doc, fn) := hok
      rw [aggregate_eq_build] at hok
      cases hbuild : buildFinalOutput env config runLabel
          (generateAllResponses env.provider config useCache) combined evalMethods
          commitSha blueprintFileName with
      | error e =>
          rw [hbuild] at hok
          exact absurd hok (by simp)
      | ok finalOutput =>
          rw [hbuild] at hok
          replace hok : (match save finalOutput.configId
              (runLabel ++ "_" ++ toSafeTimestamp env.now ++ "_comparison.json")
              finalOutput with
            | Except.ok _ =>
                Except.ok (finalOutput, some (runLabel ++ "_" ++
                  toSafeTimestamp env.now ++ "_comparison.json"))
            | Except.error _ => Except.ok (finalOutput, none)) =
              Except.ok (doc, fn) := hok
          have hdoc : finalOutput = doc := by
            cases hsave : save finalOutput.configId
                (runLabel ++ "_" ++ toSafeTimestamp env.now ++ "_comparison.json")
                finalOutput with
            | ok u =>
                rw [hsave] at hok
                replace hok : Except.ok (finalOutput, some (runLabel ++ "_" ++
                    toSafeTimestamp env.now ++ "_comparison.json")) =
                  Except.ok (doc, fn) := hok
                exact ((Prod.mk.injEq _ _ _ _).mp (Except.ok.inj hok)).1
            | error u =>
                rw [hsave] at hok
                replace hok : Except.ok (finalOutput, (none : Option String)) =
                  Except.ok (doc, fn) := hok
                exact ((Prod.mk.injEq _ _ _ _).mp (Except.ok.inj hok)).1
          rw [← hdoc]
          have hEff := buildFinalOutput_effectiveModels env config runLabel
            (generateAllResponses env.provider config useCache) combined evalMethods
            commitSha blueprintFileName finalOutput hbuild
          refine ⟨?_, ?_, ?_⟩
          · rw [hEff, List.mem_insertionSort]
            by_cases hI : (config.prompts.any fun p =>
                match p.idealResponse with
                | some s => s ≠ ""
                | none => false) = true
            · rw [if_pos hI]
              constructor
              · intro _
                exact (hasAnyIdeal_iff config).mp hI
              · intro _
                exact (mem_setInsert _ _ _).mpr (Or.inr rfl)
            · rw [if_neg hI]
              constructor
              · intro hmem
                exfalso
                rw [effSet_aggStepPrompt_fold] at hmem
                rcases (mem_effSet_fold _ _ _).mp hmem with h0 | ⟨pr, hpr, hkey⟩
                · simp at h0
                · obtain ⟨p, _, msgs, _, hpr2⟩ :=
                    mem_generateAllResponses env.provider config useCache pr hpr
                  have hend := generated_key_endBr env.provider config useCache p msgs
                    IDEAL_MODEL_ID (by rw [hpr2] at hkey; exact hkey)
                  exact absurd hend (by decide)
              · intro h2
                exact absurd ((hasAnyIdeal_iff config).mpr h2) hI
          · rw [hEff]
            exact List.sorted_insertionSort _ _
          · intro hne m hm
            rw [hEff, List.mem_insertionSort,
              if_neg (fun hI => hne ((hasAnyIdeal_iff config).mp hI)),
              effSet_aggStepPrompt_fold] at hm
            rcases (mem_effSet_fold _ _ _).mp hm with h0 | ⟨pr, hpr, hkey⟩
            · simp at h0
            · exact ⟨pr, hpr, hkey⟩

/-- C8 witness blueprint: one prompt with a non-empty ideal response. -/
def c8Prompt : PromptConfig :=
  { id := "p1", promptText := none
    messages := some [⟨"user", "hi"⟩]
    idealResponse := some "gold", system := none, temperature := none }

def c8Config : ComparisonConfig :=
  { id := some "c8", title := some "C8", description := none
    models := ["m"]
    prompts := [c8Prompt]
    temperature := none, temperatures := none
    system := none, systems := none, concurrency := none }

/-- C8 witness: the theorem applied to a concrete run whose single
prompt carries the ideal response "gold". -/
theorem effectiveModels_ideal_iff_sorted_witness :
    ∃ r, executeComparisonPipeline c7Env (fun _ _ _ => Except.ok ()) c8Config "run"
        [] false none none none = Except.ok r ∧
      (IDEAL_MODEL_ID ∈ r.1.effectiveModels ↔
        ∃ p ∈ c8Config.prompts, p.idealResponse.getD "" ≠ "") ∧
      r.1.effectiveModels.Sorted (· ≤ ·) ∧
      ((¬ ∃ p ∈ c8Config.prompts, p.idealResponse.getD "" ≠ "") →
        ∀ m ∈ r.1.effectiveModels,
          ∃ pr ∈ generateAllResponses c7Env.provider c8Config false,
            m ∈ keysOf pr.2.modelResponses) := by
  have hsome : (executeComparisonPipeline c7Env (fun _ _ _ => Except.ok ()) c8Config
      "run" [] false none none none).isOk = true := by decide
  cases hok : executeComparisonPipeline c7Env (fun _ _ _ => Except.ok ()) c8Config
      "run" [] false none none none with
  | error e =>
      rw [hok] at hsome
      exact Bool.noConfusion hsome
  | ok r =>
      obtain ⟨doc, fn⟩ := r
      exact ⟨(doc, fn), rfl, effectiveModels_ideal_iff_sorted c7Env
        (fun _ _ _ => Except.ok ()) c8Config "run" [] false none none doc fn hok⟩

end CivicEval
